import Mathlib

/-!
Verification development for the real-time room subsystem of cineus-api
(`internal/ports/ws`: `room_hub.go`, `hub.go`, the client pump and the wire
protocol types).

The Go code is embedded shallowly:

* Go maps (`h.clients`, `h.seats`) become association lists with Go map
  assignment/lookup/delete semantics (`setA`, `lookupA`, `eraseA`).
* `*Client` pointers become indices (`cid : Nat`) into a connection heap
  (`conns : List Client`); mutating a connection through a pointer becomes
  `List.set` at its index.  This preserves the aliasing that matters for the
  duplicate-join scenarios: an evicted connection object survives outside the
  client map and can later be passed to `handleUnregister`.
* `time.Now()` and `uuid.New()` become explicit `now : Nat` / `freshId`
  parameters.
* Channel sends (`h.broadcast <- msg`, `client.Send`) become an explicit
  effect list: `Effect.toClient` for a direct send to one connection's
  outbound queue and `Effect.broadcast` for a message enqueued on the room's
  broadcast channel (delivered to every registered client by
  `handleBroadcast`).
* `float64` playback times become `Rat`; the code only compares with `0` and
  stores, so rational arithmetic is a faithful model of those operations.
* `context.CancelFunc` cancellation (`c.cancel()`) becomes the Boolean field
  `closed`.

Mutation of the hub happens under its mutex, so the interleavings of
register / unregister / inbound-message processing are exactly the sequential
traces modelled by `runTrace`.
-/

namespace Cineus

/-! ### Association lists with Go map semantics -/

/-- Go map lookup `v, ok := m[k]`: first binding wins. -/
def lookupA {α : Type} (l : List (String × α)) (k : String) : Option α :=
  match l with
  | [] => none
  | (k2, v) :: rest => if k2 = k then some v else lookupA rest k

/-- Go map assignment `m[k] = v`: replace the binding if present, else add. -/
def setA {α : Type} (l : List (String × α)) (k : String) (v : α) :
    List (String × α) :=
  match l with
  | [] => [(k, v)]
  | (k2, v2) :: rest => if k2 = k then (k, v) :: rest else (k2, v2) :: setA rest k v

/-- Go map deletion `delete(m, k)`. -/
def eraseA {α : Type} (l : List (String × α)) (k : String) : List (String × α) :=
  match l with
  | [] => []
  | (k2, v2) :: rest => if k2 = k then rest else (k2, v2) :: eraseA rest k

/-! ### Wire protocol types (`messages.go`) -/

def typeRoomState : String := "room_state"

def typeUserJoined : String := "user_joined"

def typeUserLeft : String := "user_left"

def typeSeatUpdated : String := "seat_updated"

def typeMediaState : String := "media_state"

def typeError : String := "error"

def typeChatMessage : String := "chat_message"

def typeSelectSeat : String := "select_seat"

def typeMediaControl : String := "media_control"

def typeAvatarAction : String := "avatar_action"

structure RoomInfo where
  id : String
  name : String
  theme : String
  ownerID : String
  maxSeats : Nat
deriving DecidableEq

structure UserInfo where
  id : String
  displayName : String
  seatID : String
deriving DecidableEq

structure SeatInfo where
  id : String
  position : Nat
  userID : Option String
deriving DecidableEq

structure ChatMessagePayload where
  id : String
  userID : String
  displayName : String
  content : String
  createdAt : Nat
deriving DecidableEq

structure MediaState where
  videoURL : String
  videoTitle : String
  isPlaying : Bool
  currentTime : Rat
  updatedAt : Nat
deriving DecidableEq

structure RoomStatePayload where
  room : RoomInfo
  users : List UserInfo
  seats : List SeatInfo
  media : Option MediaState
deriving DecidableEq

inductive OutPayload where
  | roomState (p : RoomStatePayload)
  | userJoined (u : UserInfo)
  | userLeft (userID : String)
  | seatUpdated (seatID : String) (userID : Option String)
  | chat (p : ChatMessagePayload)
  | media (m : MediaState) (updatedBy : String)
  | error (code msg : String)
deriving DecidableEq

/-- `OutgoingMessage`: `NewOutgoingMessage` stamps `time.Now()`. -/
structure OutMsg where
  type : String
  payload : OutPayload
  timestamp : Nat
deriving DecidableEq

/-- A decoded inbound payload.  `malformed` stands for raw bytes that fail to
unmarshal into the handler's payload struct. -/
inductive InPayload where
  | chat (content : String)
  | seat (seatID : String)
  | media (action : String) (time : Rat) (videoURL videoTitle : String)
  | malformed
deriving DecidableEq

/-! ### Client (`client.go`) -/

def sendBufferSize : Nat := 256

/-- One WebSocket connection.  `closed` is the cancellation scope
(`c.cancel()` has been called); `sendQueue` is the buffered `send` channel. -/
structure Client where
  userID : String
  displayName : String
  seatID : String
  closed : Bool
  sendQueue : List OutMsg
deriving DecidableEq

/-- `Client.Send`: non-blocking, modelled as a total function.  The Go code
does `select { case c.send <- data: default: c.cancel() }`: enqueue when the
buffered channel has room, otherwise unilaterally terminate the slow client.
It never waits. -/
def Client.send (c : Client) (m : OutMsg) : Client :=
  if c.sendQueue.length < sendBufferSize then
    { c with sendQueue := c.sendQueue ++ [m] }
  else
    { c with closed := true }

/-- `Client.Close`: cancel the connection's scope.  (The Go code also closes
the send channel; no room-hub path sends to a closed client afterwards, so
only the cancellation is modelled.) -/
def Client.close (c : Client) : Client :=
  { c with closed := true }

/-- An observable side effect of a handler: a direct send to one connection
(`client.Send` / `client.SendError`) or a message enqueued on the room's
broadcast channel (`h.broadcast <- msg`). -/
inductive Effect where
  | toClient (cid : Nat) (m : OutMsg)
  | broadcast (m : OutMsg)
deriving DecidableEq

/-! ### RoomHub state (`room_hub.go`) -/

structure RoomHub where
  roomID : String
  roomName : String
  roomTheme : String
  ownerID : String
  maxSeats : Nat
  /-- `clients map[string]*Client`: userID to connection index. -/
  clients : List (String × Nat)
  /-- `seats map[string]string`: seatID to occupant userID, `""` when free. -/
  seats : List (String × String)
  /-- Connection heap: every `*Client` ever created for this room. -/
  conns : List Client
  mediaState : Option MediaState
deriving DecidableEq

/-- Seat identifier for seat number `i` (1-based), exactly as computed in
`NewRoomHub`: `string(rune('A'-1+i/10+1)) + string(rune('0'+i%10))`,
overridden to `"A" + string(rune('0'+i))` when `i <= 9`. -/
def seatIDFor (i : Nat) : String :=
  if i ≤ 9 then
    String.mk ['A', Char.ofNat (48 + i)]
  else
    String.mk [Char.ofNat (64 + i / 10 + 1), Char.ofNat (48 + i % 10)]

/-- `NewRoomHub`: empty maps, no media state, seats `1..maxSeats` initialised
to unoccupied. -/
def NewRoomHub (roomID roomName roomTheme ownerID : String) (maxSeats : Nat) :
    RoomHub :=
  { roomID := roomID
    roomName := roomName
    roomTheme := roomTheme
    ownerID := ownerID
    maxSeats := maxSeats
    clients := []
    seats := (List.range maxSeats).foldl (fun acc k => setA acc (seatIDFor (k + 1)) "") []
    conns := []
    mediaState := none }

/-- `client.SendError(code, message)` as an effect. -/
def errEffect (cid : Nat) (now : Nat) (code msg : String) : Effect :=
  .toClient cid ⟨typeError, .error code msg, now⟩

/-- The snapshot payload assembled by `sendRoomState`.  Go iterates its maps
in unspecified order; the model uses the association-list order.  Seat
positions are the running index `i` of that iteration. -/
def seatInfosAux : Nat → List (String × String) → List SeatInfo
  | _, [] => []
  | i, (s, u) :: rest =>
    ⟨s, i, if u = "" then none else some u⟩ :: seatInfosAux (i + 1) rest

def mkSnapshot (h : RoomHub) : RoomStatePayload :=
  { room := ⟨h.roomID, h.roomName, h.roomTheme, h.ownerID, h.maxSeats⟩
    users := h.clients.filterMap fun p =>
      (h.conns[p.2]?).map fun c => ⟨p.1, c.displayName, c.seatID⟩
    seats := seatInfosAux 0 h.seats
    media := h.mediaState }

/-- `sendRoomState`: one direct send of the snapshot to the new connection. -/
def sendRoomState (h : RoomHub) (cid now : Nat) : List Effect :=
  [.toClient cid ⟨typeRoomState, .roomState (mkSnapshot h), now⟩]

/-- `broadcastUserJoined`: direct send to every client other than the
joiner.  Go builds `UserInfo{ID, DisplayName}` with the seat field left at
its zero value `""`. -/
def broadcastUserJoined (h : RoomHub) (c : Client) (now : Nat) : List Effect :=
  (h.clients.filter fun p => p.1 ≠ c.userID).map fun p =>
    .toClient p.2 ⟨typeUserJoined, .userJoined ⟨c.userID, c.displayName, ""⟩, now⟩

/-- Close the connection at index `cid` in the heap (`existingClient.Close()`). -/
def heapClose (cs : List Client) (cid : Nat) : List Client :=
  match cs[cid]? with
  | none => cs
  | some c => cs.set cid c.close

/-- `handleRegister`: evict any existing connection of the same user (close
it — its seat is *not* freed here), install the new connection, send it the
snapshot, then notify the others. -/
def handleRegister (h : RoomHub) (cid now : Nat) : RoomHub × List Effect :=
  match h.conns[cid]? with
  | none => (h, [])
  | some c =>
    let conns1 :=
      match lookupA h.clients c.userID with
      | some oldCid => heapClose h.conns oldCid
      | none => h.conns
    let h1 := { h with conns := conns1, clients := setA h.clients c.userID cid }
    (h1, sendRoomState h1 cid now ++ broadcastUserJoined h1 c now)

/-- `handleUnregister`: a no-op only when *no* connection at all is registered
for the user; otherwise it frees the unregistering connection's seat and
deletes whatever connection is currently in the client map for that userID
(it does not compare connection identities).  Broadcasts `user_left` and, if
a seat was held, `seat_updated`.  (The `clientCount == 0` branch asks the
global hub to drop the room; the directory is outside this state.) -/
def handleUnregister (h : RoomHub) (cid now : Nat) : RoomHub × List Effect :=
  match h.conns[cid]? with
  | none => (h, [])
  | some c =>
    match lookupA h.clients c.userID with
    | none => (h, [])
    | some _ =>
      let seatID := c.seatID
      let seats1 := if seatID ≠ "" then setA h.seats seatID "" else h.seats
      let h1 := { h with seats := seats1, clients := eraseA h.clients c.userID }
      (h1,
        Effect.broadcast ⟨typeUserLeft, .userLeft c.userID, now⟩ ::
          (if seatID ≠ "" then
            [Effect.broadcast ⟨typeSeatUpdated, .seatUpdated seatID none, now⟩]
          else []))

/-- `handleSelectSeat`.  The two `go h.broadcastSeatUpdated(...)` goroutines
are modelled as broadcast effects in program order (vacated seat first). -/
def handleSelectSeat (h : RoomHub) (cid : Nat) (p : InPayload) (now : Nat) :
    RoomHub × List Effect :=
  match h.conns[cid]? with
  | none => (h, [])
  | some c =>
    match p with
    | .seat seatID =>
      match lookupA h.seats seatID with
      | none => (h, [errEffect cid now "INVALID_SEAT" "Seat does not exist"])
      | some occ =>
        if occ ≠ "" ∧ occ ≠ c.userID then
          (h, [errEffect cid now "SEAT_OCCUPIED" "Seat is already occupied"])
        else
          let oldSeat := c.seatID
          let vacate : Bool := oldSeat ≠ "" ∧ oldSeat ≠ seatID
          let seats1 := if vacate then setA h.seats oldSeat "" else h.seats
          let effs1 : List Effect :=
            if vacate then
              [.broadcast ⟨typeSeatUpdated, .seatUpdated oldSeat none, now⟩]
            else []
          ({ h with
              seats := setA seats1 seatID c.userID
              conns := h.conns.set cid { c with seatID := seatID } },
            effs1 ++
              [.broadcast ⟨typeSeatUpdated, .seatUpdated seatID (some c.userID), now⟩])
    | _ => (h, [errEffect cid now "INVALID_PAYLOAD" "Invalid seat selection payload"])

/-- `handleChatMessage`: empty-string check (no whitespace trimming), byte
length check (`len` on a Go string counts UTF-8 bytes), then broadcast with
fresh id, sender identity and server timestamp. -/
def handleChatMessage (h : RoomHub) (cid : Nat) (p : InPayload)
    (now : Nat) (freshId : String) : RoomHub × List Effect :=
  match h.conns[cid]? with
  | none => (h, [])
  | some c =>
    match p with
    | .chat content =>
      if content = "" then
        (h, [errEffect cid now "EMPTY_MESSAGE" "Message content cannot be empty"])
      else if 500 < content.utf8ByteSize then
        (h, [errEffect cid now "MESSAGE_TOO_LONG" "Message cannot exceed 500 characters"])
      else
        (h, [.broadcast ⟨typeChatMessage,
          .chat ⟨freshId, c.userID, c.displayName, content, now⟩, now⟩])
    | _ => (h, [errEffect cid now "INVALID_PAYLOAD" "Invalid chat message payload"])

/-- The lazily-initialised media state (`h.mediaState == nil` branch). -/
def lazyMedia (ms : Option MediaState) (now : Nat) : MediaState :=
  ms.getD ⟨"", "", false, 0, now⟩

/-- `handleMediaControl`: the owner check comes first (before payload
decoding), then the lazy initialisation, then the per-action switch.  Note
that the lazy initialisation happens *before* the `seek`/`change`/unknown
action validation, so a rejected action still leaves `mediaState` present. -/
def handleMediaControl (h : RoomHub) (cid : Nat) (p : InPayload) (now : Nat) :
    RoomHub × List Effect :=
  match h.conns[cid]? with
  | none => (h, [])
  | some c =>
    if c.userID ≠ h.ownerID then
      (h, [errEffect cid now "NOT_HOST" "Only the room owner can control media"])
    else
      match p with
      | .media action time videoURL videoTitle =>
        let ms0 := lazyMedia h.mediaState now
        let accept : MediaState → RoomHub × List Effect := fun ms =>
          ({ h with mediaState := some ms },
            [.broadcast ⟨typeMediaState, .media ms c.userID, now⟩])
        if action = "play" then
          accept { ms0 with isPlaying := true, updatedAt := now }
        else if action = "pause" then
          accept { ms0 with isPlaying := false, updatedAt := now }
        else if action = "seek" then
          if time < 0 then
            ({ h with mediaState := some ms0 },
              [errEffect cid now "INVALID_TIME" "Time cannot be negative"])
          else
            accept { ms0 with currentTime := time, updatedAt := now }
        else if action = "change" then
          if videoURL = "" then
            ({ h with mediaState := some ms0 },
              [errEffect cid now "INVALID_URL" "Video URL is required"])
          else
            accept { ms0 with
              videoURL := videoURL
              videoTitle := videoTitle
              currentTime := 0
              isPlaying := true
              updatedAt := now }
        else
          ({ h with mediaState := some ms0 },
            [errEffect cid now "INVALID_ACTION" "Invalid media control action"])
      | _ => (h, [errEffect cid now "INVALID_PAYLOAD" "Invalid media control payload"])

/-- `handleMessage`: dispatch on the discriminator tag.  Only the three
handled kinds have cases; everything else — including `avatar_action` —
falls through to the `UNKNOWN_TYPE` error. -/
def handleMessage (h : RoomHub) (cid : Nat) (msgType : String) (p : InPayload)
    (now : Nat) (freshId : String) : RoomHub × List Effect :=
  if msgType = typeChatMessage then handleChatMessage h cid p now freshId
  else if msgType = typeSelectSeat then handleSelectSeat h cid p now
  else if msgType = typeMediaControl then handleMediaControl h cid p now
  else (h, [errEffect cid now "UNKNOWN_TYPE" "Unknown message type"])

/-- Deliver one message to the connection at index `cid` (`client.Send`). -/
def sendToHeap (cs : List Client) (cid : Nat) (m : OutMsg) : List Client :=
  match cs[cid]? with
  | none => cs
  | some c => cs.set cid (c.send m)

/-- `handleBroadcast`: enqueue the message on every registered connection's
outbound queue, one non-blocking `Send` per client. -/
def handleBroadcast (h : RoomHub) (m : OutMsg) : RoomHub :=
  { h with conns := h.clients.foldl (fun cs p => sendToHeap cs p.2 m) h.conns }

/-! ### Event traces -/

/-- A freshly accepted connection (`NewClient`): no seat, open, empty queue. -/
def newClient (uid dn : String) : Client :=
  ⟨uid, dn, "", false, []⟩

/-- Allocate a new connection and register it (connection entry point
followed by `handleRegister`). -/
def registerNew (h : RoomHub) (uid dn : String) (now : Nat) :
    RoomHub × List Effect :=
  handleRegister { h with conns := h.conns ++ [newClient uid dn] } h.conns.length now

/-- The mutating operations a room hub serialises under its mutex, as far as
the client and seat maps are concerned. -/
inductive Event where
  | register (uid dn : String)
  | unregister (cid : Nat)
  | selectSeat (cid : Nat) (seatID : String)
deriving DecidableEq

def stepE (h : RoomHub) : Event → RoomHub × List Effect
  | .register uid dn => registerNew h uid dn 0
  | .unregister cid => handleUnregister h cid 0
  | .selectSeat cid s => handleSelectSeat h cid (.seat s) 0

def step (h : RoomHub) (ev : Event) : RoomHub :=
  (stepE h ev).1

def runTrace (h : RoomHub) (evs : List Event) : RoomHub :=
  evs.foldl step h

/-- An event is clean when it is what a race-free execution produces:
a register only for an authenticated (non-empty, as enforced by the HTTP
entry point before `NewClient`) user not currently in the room (no
duplicate-join eviction), and an unregister or seat selection only from the
connection currently registered for its user. -/
def okEvent (h : RoomHub) : Event → Bool
  | .register uid _ => uid != "" && (lookupA h.clients uid).isNone
  | .unregister cid =>
    match h.conns[cid]? with
    | some c => lookupA h.clients c.userID == some cid
    | none => false
  | .selectSeat cid _ =>
    match h.conns[cid]? with
    | some c => lookupA h.clients c.userID == some cid
    | none => false

def cleanTrace (h : RoomHub) : List Event → Bool
  | [] => true
  | ev :: evs => okEvent h ev && cleanTrace (step h ev) evs

/-! ### Observations used by the claims -/

def seatKeys (h : RoomHub) : List String :=
  h.seats.map Prod.fst

def occupiedCount (h : RoomHub) : Nat :=
  (h.seats.filter fun p => p.2 ≠ "").length

/-- Every occupied seat determines its occupant uniquely: as a statement
about the seat map, no user occupies two distinct seats. -/
def oneSeatPerUser (h : RoomHub) : Prop :=
  ∀ s1 s2 u, lookupA h.seats s1 = some u → lookupA h.seats s2 = some u →
    u ≠ "" → s1 = s2

/-- "Content empty after trimming whitespace", the spec's wording for the
chat validation (the code itself does not trim). -/
def trimmedChars (s : String) : List Char :=
  ((s.data.dropWhile Char.isWhitespace).reverse.dropWhile Char.isWhitespace).reverse

/-! ### Concrete scenario states used by individual claims -/

def demoRoom : RoomHub := NewRoomHub "room1" "Room" "default" "owner" 2

/-- Duplicate join of "alice" whose evicted first connection held seat A1,
followed by a second seat selection from the new connection. -/
def dupTrace : List Event :=
  [.register "alice" "Alice", .selectSeat 0 "A1",
   .register "alice" "Alice", .selectSeat 1 "A2"]

/-- A single race-free join-and-sit. -/
def cleanDemoTrace : List Event := [.register "alice" "Alice", .selectSeat 0 "A1"]

/-- State right after the duplicate join: "alice" is registered at connection
1 while her evicted connection 0 still records seat A1. -/
def dupState : RoomHub :=
  runTrace demoRoom
    [.register "alice" "Alice", .selectSeat 0 "A1", .register "alice" "Alice"]

/-- State just before the duplicate join: "alice" on connection 0 holds A1. -/
def preDupState : RoomHub :=
  runTrace demoRoom [.register "alice" "Alice", .selectSeat 0 "A1"]

def fullQueueMsg : OutMsg := ⟨typeChatMessage, .chat ⟨"m0", "bob", "Bob", "hi", 0⟩, 0⟩

/-- A client whose outbound queue is saturated (256 pending messages). -/
def slowClient : Client := ⟨"bob", "Bob", "", false, List.replicate sendBufferSize fullQueueMsg⟩

/-- Two registered clients: "alice" with a free queue, "bob" saturated. -/
def bcastState : RoomHub :=
  { demoRoom with
      clients := [("alice", 0), ("bob", 1)]
      conns := [newClient "alice" "Alice", slowClient] }

/-- The room owner alone in the room, no media state yet. -/
def ownerState : RoomHub := runTrace demoRoom [.register "owner" "Owner"]

/-- Structural invariants that hold in every state reachable by any trace of
register / unregister / select-seat events, clean or racy. -/
structure WF (h : RoomHub) : Prop where
  seats_nodup : (h.seats.map Prod.fst).Nodup
  seats_key_ne : "" ∉ h.seats.map Prod.fst
  conn_seat : ∀ c ∈ h.conns, c.seatID = "" ∨ c.seatID ∈ h.seats.map Prod.fst
  clients_nodup : (h.clients.map Prod.fst).Nodup
  clients_valid : ∀ p ∈ h.clients, ∃ c, h.conns[p.2]? = some c ∧ c.userID = p.1

/-- In a race-free execution the seat map and the registered connections
agree: each registered connection holding a seat owns that seat's binding,
and each occupied seat is held by the connection currently registered for
its occupant. -/
structure Aligned (h : RoomHub) : Prop where
  users_ne : ∀ p ∈ h.clients, p.1 ≠ ""
  reg_seat : ∀ p ∈ h.clients, ∀ c : Client, h.conns[p.2]? = some c → c.seatID ≠ "" →
    lookupA h.seats c.seatID = some p.1
  occ_reg : ∀ s u, lookupA h.seats s = some u → u ≠ "" →
    ∃ cid : Nat, ∃ c : Client, lookupA h.clients u = some cid ∧
      h.conns[cid]? = some c ∧ c.seatID = s

/-! ### Association-list lemmas -/

theorem lookupA_setA_self {α : Type} (l : List (String × α)) (k : String) (v : α) :
    lookupA (setA l k v) k = some v := by
  induction l with
  | nil => simp [setA, lookupA]
  | cons p rest ih =>
    by_cases hk : p.1 = k
    · simp [setA, hk, lookupA]
    · simp [setA, hk, lookupA, ih]

theorem lookupA_setA_ne {α : Type} (l : List (String × α)) (k k' : String) (v : α)
    (h : k' ≠ k) : lookupA (setA l k v) k' = lookupA l k' := by
  have hne : ¬(k = k') := fun h2 => h h2.symm
  induction l with
  | nil => simp [setA, lookupA, hne]
  | cons p rest ih =>
    by_cases hk : p.1 = k
    · simp only [setA, if_pos hk, lookupA]
      rw [if_neg hne, if_neg (by rw [hk]; exact hne)]
    · simp only [setA, if_neg hk, lookupA]
      by_cases hk' : p.1 = k'
      · simp [hk']
      · simp [hk', ih]

theorem lookupA_isSome_iff {α : Type} (l : List (String × α)) (k : String) :
    (lookupA l k).isSome ↔ k ∈ l.map Prod.fst := by
  induction l with
  | nil => simp [lookupA]
  | cons p rest ih =>
    by_cases hk : p.1 = k
    · simp [lookupA, hk]
    · simp [lookupA, hk, ih, Ne.symm hk]

theorem mem_of_lookupA {α : Type} {l : List (String × α)} {k : String} {v : α}
    (h : lookupA l k = some v) : (k, v) ∈ l := by
  induction l with
  | nil => simp [lookupA] at h
  | cons p rest ih =>
    rcases p with ⟨pk, pv⟩
    by_cases hk : pk = k
    · simp only [lookupA, if_pos hk, Option.some.injEq] at h
      subst hk
      subst h
      exact List.mem_cons_self _ _
    · simp only [lookupA, if_neg hk] at h
      exact List.mem_cons_of_mem _ (ih h)

theorem mem_setA {α : Type} {l : List (String × α)} {k : String} {v : α} {p : String × α}
    (h : p ∈ setA l k v) : p = (k, v) ∨ p ∈ l := by
  induction l with
  | nil => simpa [setA] using h
  | cons q rest ih =>
    by_cases hk : q.1 = k
    · simp only [setA, if_pos hk] at h
      rcases List.mem_cons.mp h with h | h
      · exact Or.inl h
      · exact Or.inr (List.mem_cons_of_mem _ h)
    · simp only [setA, if_neg hk] at h
      rcases List.mem_cons.mp h with h | h
      · exact Or.inr (h ▸ List.mem_cons_self _ _)
      · rcases ih h with h2 | h2
        · exact Or.inl h2
        · exact Or.inr (List.mem_cons_of_mem _ h2)

theorem map_fst_setA_of_mem {α : Type} (v : α) :
    ∀ (l : List (String × α)) (k : String), k ∈ l.map Prod.fst →
      (setA l k v).map Prod.fst = l.map Prod.fst := by
  intro l
  induction l with
  | nil => intro k h; simp at h
  | cons p rest ih =>
    intro k h
    by_cases hk : p.1 = k
    · simp [setA, hk]
    · simp only [List.map_cons, List.mem_cons] at h
      rcases h with h | h
      · exact absurd h.symm hk
      · simp [setA, hk, ih k h]

theorem setA_of_not_mem {α : Type} (v : α) :
    ∀ (l : List (String × α)) (k : String), k ∉ l.map Prod.fst →
      setA l k v = l ++ [(k, v)] := by
  intro l
  induction l with
  | nil => intro k _; simp [setA]
  | cons p rest ih =>
    intro k h
    simp only [List.map_cons, List.mem_cons] at h
    push_neg at h
    have h1 : ¬(p.1 = k) := fun h2 => h.1 h2.symm
    simp [setA, h1, ih k h.2]

theorem nodup_map_fst_setA {α : Type} {l : List (String × α)} {k : String} (v : α)
    (h : (l.map Prod.fst).Nodup) : ((setA l k v).map Prod.fst).Nodup := by
  by_cases hm : k ∈ l.map Prod.fst
  · rw [map_fst_setA_of_mem v l k hm]; exact h
  · rw [setA_of_not_mem v l k hm]
    simp only [List.map_append, List.map_cons, List.map_nil]
    exact List.Nodup.append h (List.nodup_singleton k) (by simpa using hm)

theorem length_setA_le {α : Type} (l : List (String × α)) (k : String) (v : α) :
    (setA l k v).length ≤ l.length + 1 := by
  induction l with
  | nil => simp [setA]
  | cons p rest ih =>
    by_cases hk : p.1 = k
    · simp [setA, hk]
    · simp only [setA, if_neg hk, List.length_cons]
      omega

theorem eraseA_sublist {α : Type} (l : List (String × α)) (k : String) :
    (eraseA l k).Sublist l := by
  induction l with
  | nil => simp [eraseA]
  | cons p rest ih =>
    by_cases hk : p.1 = k
    · simp only [eraseA, if_pos hk]
      exact List.sublist_cons_self p rest
    · simp only [eraseA, if_neg hk]
      exact ih.cons₂ p

theorem mem_of_mem_eraseA {α : Type} {l : List (String × α)} {k : String} {p : String × α}
    (h : p ∈ eraseA l k) : p ∈ l :=
  (eraseA_sublist l k).mem h

theorem nodup_map_fst_eraseA {α : Type} {l : List (String × α)} (k : String)
    (h : (l.map Prod.fst).Nodup) : ((eraseA l k).map Prod.fst).Nodup :=
  ((eraseA_sublist l k).map Prod.fst).nodup h

theorem lookupA_eraseA_ne {α : Type} (l : List (String × α)) (k k' : String)
    (h : k' ≠ k) : lookupA (eraseA l k) k' = lookupA l k' := by
  induction l with
  | nil => simp [eraseA]
  | cons p rest ih =>
    have h1 : ¬(k = k') := fun h2 => h h2.symm
    by_cases hk : p.1 = k
    · simp [eraseA, hk, lookupA, h1]
    · by_cases hk' : p.1 = k'
      · simp [eraseA, hk, lookupA, hk', h]
      · simp [eraseA, hk, lookupA, hk', ih]

theorem lookupA_eraseA_self {α : Type} (k : String) :
    ∀ (l : List (String × α)), (l.map Prod.fst).Nodup →
      lookupA (eraseA l k) k = none := by
  intro l
  induction l with
  | nil => intro _; simp [eraseA, lookupA]
  | cons p rest ih =>
    intro h
    simp only [List.map_cons, List.nodup_cons] at h
    by_cases hk : p.1 = k
    · simp only [eraseA, if_pos hk]
      cases hlk : lookupA rest k with
      | none => rfl
      | some v =>
        exact absurd (hk ▸ List.mem_map_of_mem Prod.fst (mem_of_lookupA hlk)) h.1
    · simp [eraseA, hk, lookupA, ih h.2]

theorem mem_eraseA_ne {α : Type} {l : List (String × α)} {k : String} {p : String × α}
    (hn : (l.map Prod.fst).Nodup) (h : p ∈ eraseA l k) : p ∈ l ∧ p.1 ≠ k := by
  refine ⟨mem_of_mem_eraseA h, fun hk => ?_⟩
  have h1 : (lookupA (eraseA l k) p.1).isSome := by
    rw [lookupA_isSome_iff]
    exact List.mem_map_of_mem Prod.fst h
  rw [hk, lookupA_eraseA_self k l hn] at h1
  simp at h1

theorem lookupA_of_mem_nodup {α : Type} {p : String × α} :
    ∀ (l : List (String × α)), (l.map Prod.fst).Nodup → p ∈ l →
      lookupA l p.1 = some p.2 := by
  intro l
  induction l with
  | nil => intro _ h; simp at h
  | cons q rest ih =>
    intro hn h
    simp only [List.map_cons, List.nodup_cons] at hn
    rcases List.mem_cons.mp h with h | h
    · simp [lookupA, h]
    · have hne : ¬(q.1 = p.1) := by
        intro he
        exact hn.1 (he ▸ List.mem_map_of_mem Prod.fst h)
      simp [lookupA, hne, ih hn.2 h]

/-! ### Connection-heap lemmas -/

theorem heapClose_getElem (cs : List Client) (cid i : Nat) :
    (heapClose cs cid)[i]? =
      if i = cid then (cs[i]?).map Client.close else cs[i]? := by
  unfold heapClose
  cases hc : cs[cid]? with
  | none =>
    by_cases hi : i = cid <;> simp [hi, hc]
  | some c =>
    by_cases hi : i = cid
    · subst hi
      simp [List.getElem?_set_self (List.getElem?_eq_some.mp hc).1, hc]
    · simp [List.getElem?_set_ne (fun h => hi h.symm), hi]

theorem sendToHeap_getElem_self (cs : List Client) (cid : Nat) (m : OutMsg) {c : Client}
    (h : cs[cid]? = some c) : (sendToHeap cs cid m)[cid]? = some (c.send m) := by
  unfold sendToHeap
  rw [h]
  exact List.getElem?_set_self (List.getElem?_eq_some.mp h).1

theorem sendToHeap_getElem_ne (cs : List Client) (cid i : Nat) (m : OutMsg)
    (h : i ≠ cid) : (sendToHeap cs cid m)[i]? = cs[i]? := by
  unfold sendToHeap
  cases hc : cs[cid]? with
  | none => rfl
  | some c => exact List.getElem?_set_ne (fun h2 => h h2.symm)

theorem mem_heapClose {cs : List Client} {cid : Nat} {c1 : Client}
    (h : c1 ∈ heapClose cs cid) : c1 ∈ cs ∨ ∃ c0 ∈ cs, c1 = Client.close c0 := by
  unfold heapClose at h
  cases hc : cs[cid]? with
  | none => rw [hc] at h; exact Or.inl h
  | some c =>
    rw [hc] at h
    rcases List.mem_or_eq_of_mem_set h with h2 | h2
    · exact Or.inl h2
    · refine Or.inr ⟨c, ?_, h2⟩
      obtain ⟨hlt, he⟩ := List.getElem?_eq_some.mp hc
      exact he ▸ List.getElem_mem hlt

theorem mem_map_fst_setA {α : Type} {l : List (String × α)} {k s : String} {v : α}
    (h : s ∈ (setA l k v).map Prod.fst) : s = k ∨ s ∈ l.map Prod.fst := by
  rcases List.mem_map.mp h with ⟨p, hp, hps⟩
  rcases mem_setA hp with h2 | h2
  · left; rw [← hps, h2]
  · right; rw [← hps]; exact List.mem_map_of_mem Prod.fst h2

/-! ### The initial seat map -/

theorem nodup_foldl_setA (f : Nat → String) (v : String) :
    ∀ (ks : List Nat) (acc : List (String × String)), (acc.map Prod.fst).Nodup →
      ((ks.foldl (fun a k => setA a (f k) v) acc).map Prod.fst).Nodup := by
  intro ks
  induction ks with
  | nil => intro acc h; exact h
  | cons k rest ih => intro acc h; exact ih _ (nodup_map_fst_setA v h)

theorem mem_keys_foldl_setA (f : Nat → String) (v : String) :
    ∀ (ks : List Nat) (acc : List (String × String)) (s : String),
      s ∈ ((ks.foldl (fun a k => setA a (f k) v) acc).map Prod.fst) →
      s ∈ acc.map Prod.fst ∨ ∃ j ∈ ks, s = f j := by
  intro ks
  induction ks with
  | nil => intro acc s h; exact Or.inl h
  | cons k rest ih =>
    intro acc s h
    rcases ih _ s h with h2 | h2
    · rcases mem_map_fst_setA h2 with h3 | h3
      · exact Or.inr ⟨k, List.mem_cons_self _ _, h3⟩
      · exact Or.inl h3
    · rcases h2 with ⟨j, hj, hs⟩
      exact Or.inr ⟨j, List.mem_cons_of_mem _ hj, hs⟩

theorem length_foldl_setA_le (f : Nat → String) (v : String) :
    ∀ (ks : List Nat) (acc : List (String × String)),
      (ks.foldl (fun a k => setA a (f k) v) acc).length ≤ acc.length + ks.length := by
  intro ks
  induction ks with
  | nil => intro acc; simp
  | cons k rest ih =>
    intro acc
    calc (List.foldl (fun a j => setA a (f j) v) (setA acc (f k) v) rest).length
        ≤ (setA acc (f k) v).length + rest.length := ih _
      _ ≤ (acc.length + 1) + rest.length := by
          have := length_setA_le acc (f k) v
          omega
      _ = acc.length + (rest.length + 1) := by omega
      _ = acc.length + (k :: rest).length := by simp

theorem seatIDFor_ne_empty (i : Nat) : seatIDFor i ≠ "" := by
  unfold seatIDFor
  split <;> (intro h; simp [String.ext_iff] at h)

/-! ### Well-formedness of room states -/

theorem WF_NewRoomHub (roomID roomName roomTheme ownerID : String) (maxSeats : Nat) :
    WF (NewRoomHub roomID roomName roomTheme ownerID maxSeats) := by
  refine ⟨?_, ?_, ?_, ?_, ?_⟩
  · exact nodup_foldl_setA _ "" (List.range maxSeats) [] (by simp)
  · intro hmem
    rcases mem_keys_foldl_setA _ "" (List.range maxSeats) [] "" hmem with h | ⟨j, _, hj⟩
    · simp at h
    · exact seatIDFor_ne_empty (j + 1) hj.symm
  · intro c hc; simp [NewRoomHub] at hc
  · simp [NewRoomHub]
  · intro p hp; simp [NewRoomHub] at hp

/-! ### Shape lemmas: each handler branch as an explicit state/effect pair -/

theorem registerNew_eq (h : RoomHub) (uid dn : String) (now : Nat) :
    registerNew h uid dn now =
      (let conns1 : List Client :=
        match lookupA h.clients uid with
        | some oldCid => heapClose (h.conns ++ [newClient uid dn]) oldCid
        | none => h.conns ++ [newClient uid dn]
       let h1 : RoomHub :=
        { h with conns := conns1, clients := setA h.clients uid h.conns.length }
       (h1, sendRoomState h1 h.conns.length now ++
          broadcastUserJoined h1 (newClient uid dn) now)) := by
  unfold registerNew handleRegister
  rw [List.getElem?_concat_length]
  rfl

theorem handleUnregister_no_conn (h : RoomHub) (cid now : Nat)
    (hc : h.conns[cid]? = none) : handleUnregister h cid now = (h, []) := by
  simp only [handleUnregister, hc]

theorem handleUnregister_absent (h : RoomHub) (cid now : Nat) {c : Client}
    (hc : h.conns[cid]? = some c) (hu : lookupA h.clients c.userID = none) :
    handleUnregister h cid now = (h, []) := by
  simp only [handleUnregister, hc, hu]

theorem handleUnregister_seated (h : RoomHub) (cid now : Nat) {c : Client} {ocid : Nat}
    (hc : h.conns[cid]? = some c) (hu : lookupA h.clients c.userID = some ocid)
    (hs : c.seatID ≠ "") :
    handleUnregister h cid now =
      ({ h with
          seats := setA h.seats c.seatID ""
          clients := eraseA h.clients c.userID },
        [Effect.broadcast ⟨typeUserLeft, .userLeft c.userID, now⟩,
         Effect.broadcast ⟨typeSeatUpdated, .seatUpdated c.seatID none, now⟩]) := by
  simp only [handleUnregister, hc, hu]
  simp [hs]

theorem handleUnregister_seatless (h : RoomHub) (cid now : Nat) {c : Client} {ocid : Nat}
    (hc : h.conns[cid]? = some c) (hu : lookupA h.clients c.userID = some ocid)
    (hs : c.seatID = "") :
    handleUnregister h cid now =
      ({ h with clients := eraseA h.clients c.userID },
        [Effect.broadcast ⟨typeUserLeft, .userLeft c.userID, now⟩]) := by
  simp only [handleUnregister, hc, hu]
  simp [hs]

theorem handleSelectSeat_no_conn (h : RoomHub) (cid now : Nat) (p : InPayload)
    (hc : h.conns[cid]? = none) : handleSelectSeat h cid p now = (h, []) := by
  simp only [handleSelectSeat, hc]

theorem handleSelectSeat_invalid (h : RoomHub) (cid now : Nat) {c : Client} (s : String)
    (hc : h.conns[cid]? = some c) (hs : lookupA h.seats s = none) :
    handleSelectSeat h cid (.seat s) now =
      (h, [errEffect cid now "INVALID_SEAT" "Seat does not exist"]) := by
  simp only [handleSelectSeat, hc, hs]

theorem handleSelectSeat_occupied (h : RoomHub) (cid now : Nat) {c : Client}
    {s occ : String} (hc : h.conns[cid]? = some c)
    (hs : lookupA h.seats s = some occ) (h1 : occ ≠ "") (h2 : occ ≠ c.userID) :
    handleSelectSeat h cid (.seat s) now =
      (h, [errEffect cid now "SEAT_OCCUPIED" "Seat is already occupied"]) := by
  simp only [handleSelectSeat, hc, hs]
  simp [h1, h2]

theorem handleSelectSeat_move (h : RoomHub) (cid now : Nat) {c : Client}
    {s occ : String} (hc : h.conns[cid]? = some c)
    (hs : lookupA h.seats s = some occ) (hok : ¬(occ ≠ "" ∧ occ ≠ c.userID))
    (hv : c.seatID ≠ "" ∧ c.seatID ≠ s) :
    handleSelectSeat h cid (.seat s) now =
      ({ h with
          seats := setA (setA h.seats c.seatID "") s c.userID
          conns := h.conns.set cid { c with seatID := s } },
        [Effect.broadcast ⟨typeSeatUpdated, .seatUpdated c.seatID none, now⟩,
         Effect.broadcast ⟨typeSeatUpdated, .seatUpdated s (some c.userID), now⟩]) := by
  simp only [handleSelectSeat, hc, hs]
  simp [hok, hv]

theorem handleSelectSeat_stay (h : RoomHub) (cid now : Nat) {c : Client}
    {s occ : String} (hc : h.conns[cid]? = some c)
    (hs : lookupA h.seats s = some occ) (hok : ¬(occ ≠ "" ∧ occ ≠ c.userID))
    (hv : ¬(c.seatID ≠ "" ∧ c.seatID ≠ s)) :
    handleSelectSeat h cid (.seat s) now =
      ({ h with
          seats := setA h.seats s c.userID
          conns := h.conns.set cid { c with seatID := s } },
        [Effect.broadcast ⟨typeSeatUpdated, .seatUpdated s (some c.userID), now⟩]) := by
  simp only [handleSelectSeat, hc, hs]
  simp [hok, hv]

theorem handleSelectSeat_payload_chat (h : RoomHub) (cid now : Nat) {c : Client}
    (content : String) (hc : h.conns[cid]? = some c) :
    handleSelectSeat h cid (.chat content) now =
      (h, [errEffect cid now "INVALID_PAYLOAD" "Invalid seat selection payload"]) := by
  simp only [handleSelectSeat, hc]

theorem handleSelectSeat_payload_media (h : RoomHub) (cid now : Nat) {c : Client}
    (a : String) (t : Rat) (u ti : String) (hc : h.conns[cid]? = some c) :
    handleSelectSeat h cid (.media a t u ti) now =
      (h, [errEffect cid now "INVALID_PAYLOAD" "Invalid seat selection payload"]) := by
  simp only [handleSelectSeat, hc]

theorem handleSelectSeat_payload_malformed (h : RoomHub) (cid now : Nat) {c : Client}
    (hc : h.conns[cid]? = some c) :
    handleSelectSeat h cid .malformed now =
      (h, [errEffect cid now "INVALID_PAYLOAD" "Invalid seat selection payload"]) := by
  simp only [handleSelectSeat, hc]

theorem registerNew_eq_none (h : RoomHub) (uid dn : String) (now : Nat)
    (hl : lookupA h.clients uid = none) :
    registerNew h uid dn now =
      (let h1 : RoomHub :=
        { h with
            conns := h.conns ++ [newClient uid dn]
            clients := setA h.clients uid h.conns.length }
       (h1, sendRoomState h1 h.conns.length now ++
          broadcastUserJoined h1 (newClient uid dn) now)) := by
  unfold registerNew handleRegister
  simp only [List.getElem?_concat_length, newClient, hl]

theorem registerNew_eq_evict (h : RoomHub) (uid dn : String) (now : Nat) {oldCid : Nat}
    (hl : lookupA h.clients uid = some oldCid) :
    registerNew h uid dn now =
      (let h1 : RoomHub :=
        { h with
            conns := heapClose (h.conns ++ [newClient uid dn]) oldCid
            clients := setA h.clients uid h.conns.length }
       (h1, sendRoomState h1 h.conns.length now ++
          broadcastUserJoined h1 (newClient uid dn) now)) := by
  unfold registerNew handleRegister
  simp only [List.getElem?_concat_length, newClient, hl]

/-! ### WF is preserved by every event -/

theorem WF_register_core (h : RoomHub) (uid dn : String) (conns1 : List Client)
    (hget : ∀ i : Nat, conns1[i]? = (h.conns ++ [newClient uid dn])[i]? ∨
        conns1[i]? = ((h.conns ++ [newClient uid dn])[i]?).map Client.close)
    (hw : WF h) :
    WF { h with conns := conns1, clients := setA h.clients uid h.conns.length } := by
  have seat_of_append : ∀ c0 : Client, c0 ∈ h.conns ++ [newClient uid dn] →
      c0.seatID = "" ∨ c0.seatID ∈ h.seats.map Prod.fst := by
    intro c0 hc0
    rcases List.mem_append.mp hc0 with h2 | h2
    · exact hw.conn_seat c0 h2
    · rcases List.mem_singleton.mp h2 with rfl
      exact Or.inl rfl
  refine ⟨hw.seats_nodup, hw.seats_key_ne, ?_, nodup_map_fst_setA _ hw.clients_nodup, ?_⟩
  · intro c1 hc1
    rcases List.mem_iff_getElem?.mp hc1 with ⟨i, hi⟩
    rcases hget i with hg | hg
    · rw [hg] at hi
      obtain ⟨hlt, he⟩ := List.getElem?_eq_some.mp hi
      exact seat_of_append c1 (he ▸ List.getElem_mem hlt)
    · rw [hg] at hi
      cases hc : (h.conns ++ [newClient uid dn])[i]? with
      | none => rw [hc] at hi; simp at hi
      | some c0 =>
        rw [hc] at hi
        have hi2 : Client.close c0 = c1 := by simpa using hi
        obtain ⟨hlt, he⟩ := List.getElem?_eq_some.mp hc
        have hmem : c0 ∈ h.conns ++ [newClient uid dn] := he ▸ List.getElem_mem hlt
        rw [← hi2]
        exact seat_of_append c0 hmem
  · intro p hp
    rcases mem_setA hp with h2 | h2
    · have happ : (h.conns ++ [newClient uid dn])[h.conns.length]? =
          some (newClient uid dn) := List.getElem?_concat_length _ _
      rcases hget h.conns.length with hg | hg
      · refine ⟨newClient uid dn, ?_, by rw [h2]; rfl⟩
        rw [h2]
        show conns1[h.conns.length]? = _
        rw [hg, happ]
      · refine ⟨(newClient uid dn).close, ?_, by rw [h2]; rfl⟩
        rw [h2]
        show conns1[h.conns.length]? = _
        rw [hg, happ]
        rfl
    · rcases hw.clients_valid p h2 with ⟨c, hc, hcu⟩
      have hlt := (List.getElem?_eq_some.mp hc).1
      have happ : (h.conns ++ [newClient uid dn])[p.2]? = some c := by
        rw [List.getElem?_append_left hlt]
        exact hc
      rcases hget p.2 with hg | hg
      · exact ⟨c, by rw [hg, happ], hcu⟩
      · exact ⟨c.close, by rw [hg, happ]; rfl, hcu⟩

theorem WF_registerNew (h : RoomHub) (uid dn : String) (now : Nat) (hw : WF h) :
    WF (registerNew h uid dn now).1 ∧
      (registerNew h uid dn now).1.seats = h.seats ∧
      (registerNew h uid dn now).1.maxSeats = h.maxSeats ∧
      (registerNew h uid dn now).1.clients = setA h.clients uid h.conns.length := by
  cases hl : lookupA h.clients uid with
  | none =>
    rw [registerNew_eq_none h uid dn now hl]
    exact ⟨WF_register_core h uid dn _ (fun i => Or.inl rfl) hw, rfl, rfl, rfl⟩
  | some oldCid =>
    rw [registerNew_eq_evict h uid dn now hl]
    refine ⟨WF_register_core h uid dn _ (fun i => ?_) hw, rfl, rfl, rfl⟩
    rw [heapClose_getElem]
    by_cases hi : i = oldCid
    · rw [if_pos hi, hi]
      exact Or.inr rfl
    · rw [if_neg hi]
      exact Or.inl rfl

theorem WF_handleUnregister (h : RoomHub) (cid now : Nat) (hw : WF h) :
    WF (handleUnregister h cid now).1 ∧
      seatKeys (handleUnregister h cid now).1 = seatKeys h ∧
      (handleUnregister h cid now).1.maxSeats = h.maxSeats := by
  cases hc : h.conns[cid]? with
  | none => rw [handleUnregister_no_conn h cid now hc]; exact ⟨hw, rfl, rfl⟩
  | some c =>
    cases hu : lookupA h.clients c.userID with
    | none => rw [handleUnregister_absent h cid now hc hu]; exact ⟨hw, rfl, rfl⟩
    | some ocid =>
      by_cases hs : c.seatID = ""
      · rw [handleUnregister_seatless h cid now hc hu hs]
        refine ⟨⟨hw.seats_nodup, hw.seats_key_ne, hw.conn_seat,
            nodup_map_fst_eraseA _ hw.clients_nodup, ?_⟩, rfl, rfl⟩
        intro p hp
        exact hw.clients_valid p (mem_of_mem_eraseA hp)
      · rw [handleUnregister_seated h cid now hc hu hs]
        obtain ⟨hlt, he⟩ := List.getElem?_eq_some.mp hc
        have hmem : c ∈ h.conns := he ▸ List.getElem_mem hlt
        have hkey : c.seatID ∈ h.seats.map Prod.fst :=
          (hw.conn_seat c hmem).resolve_left hs
        have hkeys : (setA h.seats c.seatID "").map Prod.fst = h.seats.map Prod.fst :=
          map_fst_setA_of_mem "" h.seats c.seatID hkey
        refine ⟨⟨?_, ?_, ?_, nodup_map_fst_eraseA _ hw.clients_nodup, ?_⟩, ?_, rfl⟩
        · rw [hkeys]; exact hw.seats_nodup
        · rw [hkeys]; exact hw.seats_key_ne
        · intro c1 hc1
          rw [hkeys]
          exact hw.conn_seat c1 hc1
        · intro p hp
          exact hw.clients_valid p (mem_of_mem_eraseA hp)
        · simp only [seatKeys]
          exact hkeys

theorem WF_handleSelectSeat (h : RoomHub) (cid : Nat) (p : InPayload) (now : Nat)
    (hw : WF h) :
    WF (handleSelectSeat h cid p now).1 ∧
      seatKeys (handleSelectSeat h cid p now).1 = seatKeys h ∧
      (handleSelectSeat h cid p now).1.maxSeats = h.maxSeats := by
  cases hc : h.conns[cid]? with
  | none => rw [handleSelectSeat_no_conn h cid now p hc]; exact ⟨hw, rfl, rfl⟩
  | some c =>
    obtain ⟨hlt, he⟩ := List.getElem?_eq_some.mp hc
    have hcm : c ∈ h.conns := he ▸ List.getElem_mem hlt
    cases p with
    | chat content =>
      rw [handleSelectSeat_payload_chat h cid now content hc]
      exact ⟨hw, rfl, rfl⟩
    | media a t u ti =>
      rw [handleSelectSeat_payload_media h cid now a t u ti hc]
      exact ⟨hw, rfl, rfl⟩
    | malformed =>
      rw [handleSelectSeat_payload_malformed h cid now hc]
      exact ⟨hw, rfl, rfl⟩
    | seat s =>
      cases hs : lookupA h.seats s with
      | none => rw [handleSelectSeat_invalid h cid now s hc hs]; exact ⟨hw, rfl, rfl⟩
      | some occ =>
        have hsk : s ∈ h.seats.map Prod.fst := by
          rw [← lookupA_isSome_iff]
          rw [hs]
          rfl
        by_cases hocc : occ ≠ "" ∧ occ ≠ c.userID
        · rw [handleSelectSeat_occupied h cid now hc hs hocc.1 hocc.2]
          exact ⟨hw, rfl, rfl⟩
        · have hconn : ∀ (seats2 : List (String × String)),
              seats2.map Prod.fst = h.seats.map Prod.fst →
              ∀ c1 ∈ h.conns.set cid { c with seatID := s },
                c1.seatID = "" ∨ c1.seatID ∈ seats2.map Prod.fst := by
            intro seats2 hk c1 hc1
            rw [hk]
            rcases List.mem_or_eq_of_mem_set hc1 with h2 | h2
            · exact hw.conn_seat c1 h2
            · rw [h2]
              exact Or.inr hsk
          have hvalid : ∀ (seats2 : List (String × String)),
              ∀ p2 ∈ h.clients, ∃ c2,
                (RoomHub.mk h.roomID h.roomName h.roomTheme h.ownerID h.maxSeats
                  h.clients seats2 (h.conns.set cid { c with seatID := s })
                  h.mediaState).conns[p2.2]? = some c2 ∧ c2.userID = p2.1 := by
            intro seats2 p2 hp2
            rcases hw.clients_valid p2 hp2 with ⟨c2, hc2, hcu2⟩
            by_cases hip : p2.2 = cid
            · subst hip
              rw [hc] at hc2
              refine ⟨{ c with seatID := s }, ?_, ?_⟩
              · exact List.getElem?_set_self hlt
              · rcases hc2 with ⟨rfl⟩
                exact hcu2
            · refine ⟨c2, ?_, hcu2⟩
              simp only []
              rw [List.getElem?_set_ne (fun h2 => hip h2.symm)]
              exact hc2
          by_cases hv : c.seatID ≠ "" ∧ c.seatID ≠ s
          · rw [handleSelectSeat_move h cid now hc hs hocc hv]
            have hok : c.seatID ∈ h.seats.map Prod.fst :=
              (hw.conn_seat c hcm).resolve_left hv.1
            have hk1 : (setA h.seats c.seatID "").map Prod.fst = h.seats.map Prod.fst :=
              map_fst_setA_of_mem "" h.seats c.seatID hok
            have hk2 : (setA (setA h.seats c.seatID "") s c.userID).map Prod.fst =
                h.seats.map Prod.fst := by
              rw [map_fst_setA_of_mem c.userID _ s (by rw [hk1]; exact hsk), hk1]
            refine ⟨⟨?_, ?_, hconn _ hk2, hw.clients_nodup, hvalid _⟩, ?_, rfl⟩
            · rw [hk2]; exact hw.seats_nodup
            · rw [hk2]; exact hw.seats_key_ne
            · simp only [seatKeys]; exact hk2
          · rw [handleSelectSeat_stay h cid now hc hs hocc hv]
            have hk2 : (setA h.seats s c.userID).map Prod.fst = h.seats.map Prod.fst :=
              map_fst_setA_of_mem c.userID h.seats s hsk
            refine ⟨⟨?_, ?_, hconn _ hk2, hw.clients_nodup, hvalid _⟩, ?_, rfl⟩
            · rw [hk2]; exact hw.seats_nodup
            · rw [hk2]; exact hw.seats_key_ne
            · simp only [seatKeys]; exact hk2

theorem WF_step (h : RoomHub) (ev : Event) (hw : WF h) :
    WF (step h ev) ∧ seatKeys (step h ev) = seatKeys h ∧
      (step h ev).maxSeats = h.maxSeats := by
  cases ev with
  | register uid dn =>
    rcases WF_registerNew h uid dn 0 hw with ⟨h1, h2, h3, _⟩
    exact ⟨h1, by simp only [step, stepE, seatKeys, h2], h3⟩
  | unregister cid => exact WF_handleUnregister h cid 0 hw
  | selectSeat cid s => exact WF_handleSelectSeat h cid (.seat s) 0 hw

/-! ### Seat/client alignment, the extra invariant of clean traces -/

theorem values_foldl_setA (f : Nat → String) :
    ∀ (ks : List Nat) (acc : List (String × String)), (∀ p ∈ acc, p.2 = "") →
      ∀ p ∈ ks.foldl (fun a k => setA a (f k) "") acc, p.2 = "" := by
  intro ks
  induction ks with
  | nil => intro acc hacc; exact hacc
  | cons k rest ih =>
    intro acc hacc
    refine ih _ ?_
    intro p hp
    rcases mem_setA hp with h2 | h2
    · rw [h2]
    · exact hacc p h2

theorem Aligned_NewRoomHub (roomID roomName roomTheme ownerID : String)
    (maxSeats : Nat) :
    Aligned (NewRoomHub roomID roomName roomTheme ownerID maxSeats) := by
  refine ⟨?_, ?_, ?_⟩
  · intro p hp; simp [NewRoomHub] at hp
  · intro p hp; simp [NewRoomHub] at hp
  · intro s u hs hu
    exact absurd (values_foldl_setA _ (List.range maxSeats) [] (by simp) _
      (mem_of_lookupA hs)) hu

theorem Aligned_register (h : RoomHub) (uid dn : String) (hw : WF h)
    (ha : Aligned h) (hne : uid ≠ "") (hl : lookupA h.clients uid = none) :
    Aligned (registerNew h uid dn 0).1 := by
  rw [registerNew_eq_none h uid dn 0 hl]
  show Aligned { h with
    conns := h.conns ++ [newClient uid dn]
    clients := setA h.clients uid h.conns.length }
  refine ⟨?_, ?_, ?_⟩
  · intro p hp
    rcases mem_setA hp with h2 | h2
    · rw [h2]; exact hne
    · exact ha.users_ne p h2
  · intro p hp c hc hcs
    rcases mem_setA hp with h2 | h2
    · subst h2
      have hc2 : (h.conns ++ [newClient uid dn])[h.conns.length]? = some c := hc
      rw [List.getElem?_concat_length] at hc2
      have : newClient uid dn = c := Option.some.inj hc2
      rw [← this] at hcs
      exact absurd rfl hcs
    · rcases hw.clients_valid p h2 with ⟨c0, hc0, _⟩
      have hlt := (List.getElem?_eq_some.mp hc0).1
      have hc2 : (h.conns ++ [newClient uid dn])[p.2]? = some c := hc
      rw [List.getElem?_append_left hlt] at hc2
      exact ha.reg_seat p h2 c hc2 hcs
  · intro s u hs hu
    rcases ha.occ_reg s u hs hu with ⟨cid, c, hcl, hcc, hcs⟩
    have hune : u ≠ uid := by
      intro he
      rw [he, hl] at hcl
      exact Option.noConfusion hcl
    have hlt := (List.getElem?_eq_some.mp hcc).1
    refine ⟨cid, c, ?_, ?_, hcs⟩
    · show lookupA (setA h.clients uid h.conns.length) u = some cid
      rw [lookupA_setA_ne _ _ _ _ hune]
      exact hcl
    · show (h.conns ++ [newClient uid dn])[cid]? = some c
      rw [List.getElem?_append_left hlt]
      exact hcc

theorem Aligned_unregister (h : RoomHub) (cid : Nat) {c : Client} (hw : WF h)
    (ha : Aligned h) (hc : h.conns[cid]? = some c)
    (hu : lookupA h.clients c.userID = some cid) :
    Aligned (handleUnregister h cid 0).1 := by
  have hmemc : (c.userID, cid) ∈ h.clients := mem_of_lookupA hu
  by_cases hseat : c.seatID = ""
  · rw [handleUnregister_seatless h cid 0 hc hu hseat]
    show Aligned { h with clients := eraseA h.clients c.userID }
    refine ⟨?_, ?_, ?_⟩
    · intro p hp
      exact ha.users_ne p (mem_of_mem_eraseA hp)
    · intro p hp c2 hc2 hcs2
      exact ha.reg_seat p (mem_of_mem_eraseA hp) c2 hc2 hcs2
    · intro s u hs hu2
      rcases ha.occ_reg s u hs hu2 with ⟨cid_u, c_u, hcl, hcc, hcs⟩
      have hune : u ≠ c.userID := by
        intro he
        rw [he, hu] at hcl
        have he2 : cid = cid_u := Option.some.inj hcl
        rw [← he2, hc] at hcc
        have he3 : c = c_u := Option.some.inj hcc
        rw [← he3, hseat] at hcs
        have hk : ("" : String) ∈ h.seats.map Prod.fst := by
          rw [← lookupA_isSome_iff, hcs, hs]
          rfl
        exact hw.seats_key_ne hk
      refine ⟨cid_u, c_u, ?_, hcc, hcs⟩
      show lookupA (eraseA h.clients c.userID) u = some cid_u
      rw [lookupA_eraseA_ne _ _ _ hune]
      exact hcl
  · rw [handleUnregister_seated h cid 0 hc hu hseat]
    show Aligned { h with
      seats := setA h.seats c.seatID ""
      clients := eraseA h.clients c.userID }
    have hcseat : lookupA h.seats c.seatID = some c.userID :=
      ha.reg_seat (c.userID, cid) hmemc c hc hseat
    refine ⟨?_, ?_, ?_⟩
    · intro p hp
      exact ha.users_ne p (mem_of_mem_eraseA hp)
    · intro p hp c2 hc2 hcs2
      rcases mem_eraseA_ne hw.clients_nodup hp with ⟨hpm, hpne⟩
      have hold := ha.reg_seat p hpm c2 hc2 hcs2
      have hne2 : c2.seatID ≠ c.seatID := by
        intro he
        rw [he, hcseat] at hold
        exact hpne (Option.some.inj hold).symm
      show lookupA (setA h.seats c.seatID "") c2.seatID = some p.1
      rw [lookupA_setA_ne _ _ _ _ hne2]
      exact hold
    · intro s u hs hu2
      have hs2 : lookupA (setA h.seats c.seatID "") s = some u := hs
      have hsne : s ≠ c.seatID := by
        intro he
        rw [he, lookupA_setA_self] at hs2
        exact hu2 (Option.some.inj hs2).symm
      rw [lookupA_setA_ne _ _ _ _ hsne] at hs2
      rcases ha.occ_reg s u hs2 hu2 with ⟨cid_u, c_u, hcl, hcc, hcs⟩
      have hune : u ≠ c.userID := by
        intro he
        rw [he, hu] at hcl
        have he2 : cid = cid_u := Option.some.inj hcl
        rw [← he2, hc] at hcc
        have he3 : c = c_u := Option.some.inj hcc
        rw [← he3] at hcs
        exact hsne (hcs.symm)
      refine ⟨cid_u, c_u, ?_, hcc, hcs⟩
      show lookupA (eraseA h.clients c.userID) u = some cid_u
      rw [lookupA_eraseA_ne _ _ _ hune]
      exact hcl


theorem Aligned_selectSeat (h : RoomHub) (cid : Nat) (s : String) {c : Client}
    (hw : WF h) (ha : Aligned h) (hc : h.conns[cid]? = some c)
    (hu : lookupA h.clients c.userID = some cid) :
    Aligned (handleSelectSeat h cid (.seat s) 0).1 := by
  have hmemc : (c.userID, cid) ∈ h.clients := mem_of_lookupA hu
  have hlt := (List.getElem?_eq_some.mp hc).1
  have huniq : ∀ p ∈ h.clients, p.1 = c.userID → p.2 = cid := by
    intro p hp hpu
    have := lookupA_of_mem_nodup h.clients hw.clients_nodup hp
    rw [hpu, hu] at this
    exact (Option.some.inj this).symm
  cases hseat : lookupA h.seats s with
  | none => rw [handleSelectSeat_invalid h cid 0 s hc hseat]; exact ha
  | some occ =>
    by_cases hocc : occ ≠ "" ∧ occ ≠ c.userID
    · rw [handleSelectSeat_occupied h cid 0 hc hseat hocc.1 hocc.2]; exact ha
    · have hocc2 : occ = "" ∨ occ = c.userID := by
        by_cases h1 : occ = ""
        · exact Or.inl h1
        · by_cases h2 : occ = c.userID
          · exact Or.inr h2
          · exact absurd ⟨h1, h2⟩ hocc
      have hB : ∀ p ∈ h.clients, ∀ c2 : Client, h.conns[p.2]? = some c2 →
          p.2 ≠ cid → c2.seatID ≠ "" → c2.seatID ≠ s := by
        intro p hp c2 hc2 hpne hcs2 he
        have hold := ha.reg_seat p hp c2 hc2 hcs2
        rw [he, hseat] at hold
        have hpu : occ = p.1 := Option.some.inj hold
        have hp1ne : p.1 ≠ "" := ha.users_ne p hp
        rcases hocc2 with h1 | h1
        · exact hp1ne (by rw [← hpu, h1])
        · exact hpne (huniq p hp (by rw [← hpu, h1]))
      by_cases hv : c.seatID ≠ "" ∧ c.seatID ≠ s
      · rw [handleSelectSeat_move h cid 0 hc hseat hocc hv]
        show Aligned { h with
          seats := setA (setA h.seats c.seatID "") s c.userID
          conns := h.conns.set cid { c with seatID := s } }
        have hcbind : lookupA h.seats c.seatID = some c.userID :=
          ha.reg_seat (c.userID, cid) hmemc c hc hv.1
        have hC : ∀ p ∈ h.clients, ∀ c2 : Client, h.conns[p.2]? = some c2 →
            p.2 ≠ cid → c2.seatID ≠ "" → c2.seatID ≠ c.seatID := by
          intro p hp c2 hc2 hpne hcs2 he
          have hold := ha.reg_seat p hp c2 hc2 hcs2
          rw [he, hcbind] at hold
          exact hpne (huniq p hp (Option.some.inj hold).symm)
        refine ⟨ha.users_ne, ?_, ?_⟩
        · intro p hp c2 hc2 hcs2
          by_cases hip : p.2 = cid
          · rw [hip, List.getElem?_set_self hlt] at hc2
            have hce : { c with seatID := s } = c2 := Option.some.inj hc2
            rcases hw.clients_valid p hp with ⟨c0, hc0, hc0u⟩
            rw [hip, hc] at hc0
            have : c = c0 := Option.some.inj hc0
            rw [← hce]
            show lookupA (setA (setA h.seats c.seatID "") s c.userID) s = some p.1
            rw [lookupA_setA_self, ← hc0u, ← this]
          · rw [List.getElem?_set_ne (fun h2 => hip h2.symm)] at hc2
            have hold := ha.reg_seat p hp c2 hc2 hcs2
            rw [show ∀ x : List (String × String), lookupA x c2.seatID = lookupA x c2.seatID from fun _ => rfl]
            show lookupA (setA (setA h.seats c.seatID "") s c.userID) c2.seatID = some p.1
            rw [lookupA_setA_ne _ _ _ _ (hB p hp c2 hc2 hip hcs2),
              lookupA_setA_ne _ _ _ _ (hC p hp c2 hc2 hip hcs2)]
            exact hold
        · intro s' u hs' hu'
          have hs2 : lookupA (setA (setA h.seats c.seatID "") s c.userID) s' = some u := hs'
          by_cases hss : s' = s
          · rw [hss, lookupA_setA_self] at hs2
            have hue : c.userID = u := Option.some.inj hs2
            refine ⟨cid, { c with seatID := s }, ?_, ?_, hss.symm⟩
            · show lookupA h.clients u = some cid
              rw [← hue]
              exact hu
            · show (h.conns.set cid { c with seatID := s })[cid]? = some _
              exact List.getElem?_set_self hlt
          · rw [lookupA_setA_ne _ _ _ _ hss] at hs2
            by_cases hsold : s' = c.seatID
            · rw [hsold, lookupA_setA_self] at hs2
              exact absurd (Option.some.inj hs2).symm hu'
            · rw [lookupA_setA_ne _ _ _ _ hsold] at hs2
              rcases ha.occ_reg s' u hs2 hu' with ⟨cid_u, c_u, hcl, hcc, hcs⟩
              have hcu_ne : cid_u ≠ cid := by
                intro he
                rw [he, hc] at hcc
                have : c = c_u := Option.some.inj hcc
                rw [← this] at hcs
                exact hsold hcs.symm
              refine ⟨cid_u, c_u, hcl, ?_, hcs⟩
              show (h.conns.set cid { c with seatID := s })[cid_u]? = some c_u
              rw [List.getElem?_set_ne (fun h2 => hcu_ne h2.symm)]
              exact hcc
      · rw [handleSelectSeat_stay h cid 0 hc hseat hocc hv]
        show Aligned { h with
          seats := setA h.seats s c.userID
          conns := h.conns.set cid { c with seatID := s } }
        have hv2 : c.seatID = "" ∨ c.seatID = s := by
          by_cases h1 : c.seatID = ""
          · exact Or.inl h1
          · by_cases h2 : c.seatID = s
            · exact Or.inr h2
            · exact absurd ⟨h1, h2⟩ hv
        refine ⟨ha.users_ne, ?_, ?_⟩
        · intro p hp c2 hc2 hcs2
          by_cases hip : p.2 = cid
          · rw [hip, List.getElem?_set_self hlt] at hc2
            have hce : { c with seatID := s } = c2 := Option.some.inj hc2
            rcases hw.clients_valid p hp with ⟨c0, hc0, hc0u⟩
            rw [hip, hc] at hc0
            have : c = c0 := Option.some.inj hc0
            rw [← hce]
            show lookupA (setA h.seats s c.userID) s = some p.1
            rw [lookupA_setA_self, ← hc0u, ← this]
          · rw [List.getElem?_set_ne (fun h2 => hip h2.symm)] at hc2
            have hold := ha.reg_seat p hp c2 hc2 hcs2
            show lookupA (setA h.seats s c.userID) c2.seatID = some p.1
            rw [lookupA_setA_ne _ _ _ _ (hB p hp c2 hc2 hip hcs2)]
            exact hold
        · intro s' u hs' hu'
          have hs2 : lookupA (setA h.seats s c.userID) s' = some u := hs'
          by_cases hss : s' = s
          · rw [hss, lookupA_setA_self] at hs2
            have hue : c.userID = u := Option.some.inj hs2
            refine ⟨cid, { c with seatID := s }, ?_, ?_, hss.symm⟩
            · show lookupA h.clients u = some cid
              rw [← hue]
              exact hu
            · exact List.getElem?_set_self hlt
          · rw [lookupA_setA_ne _ _ _ _ hss] at hs2
            rcases ha.occ_reg s' u hs2 hu' with ⟨cid_u, c_u, hcl, hcc, hcs⟩
            have hcu_ne : cid_u ≠ cid := by
              intro he
              rw [he, hc] at hcc
              have hccu : c = c_u := Option.some.inj hcc
              rw [← hccu] at hcs
              rcases hv2 with h1 | h1
              · rw [h1] at hcs
                have hk : ("" : String) ∈ h.seats.map Prod.fst := by
                  rw [← lookupA_isSome_iff, hcs, hs2]
                  rfl
                exact hw.seats_key_ne hk
              · rw [h1] at hcs
                exact hss hcs.symm
            refine ⟨cid_u, c_u, hcl, ?_, hcs⟩
            show (h.conns.set cid { c with seatID := s })[cid_u]? = some c_u
            rw [List.getElem?_set_ne (fun h2 => hcu_ne h2.symm)]
            exact hcc

theorem WF_runTrace (evs : List Event) :
    ∀ (h : RoomHub), WF h → WF (runTrace h evs) ∧
      seatKeys (runTrace h evs) = seatKeys h ∧
      (runTrace h evs).maxSeats = h.maxSeats := by
  induction evs with
  | nil => intro h hw; exact ⟨hw, rfl, rfl⟩
  | cons ev rest ih =>
    intro h hw
    rcases WF_step h ev hw with ⟨h1, h2, h3⟩
    rcases ih (step h ev) h1 with ⟨g1, g2, g3⟩
    exact ⟨g1, by rw [runTrace] at g2 ⊢; simp only [List.foldl_cons] at g2 ⊢; rw [g2, h2],
      by rw [runTrace] at g3 ⊢; simp only [List.foldl_cons] at g3 ⊢; rw [g3, h3]⟩

theorem Aligned_step (h : RoomHub) (ev : Event) (hw : WF h) (ha : Aligned h)
    (hok : okEvent h ev = true) : Aligned (step h ev) := by
  cases ev with
  | register uid dn =>
    simp only [okEvent, Bool.and_eq_true, bne_iff_ne, Option.isNone_iff_eq_none] at hok
    exact Aligned_register h uid dn hw ha hok.1 hok.2
  | unregister cid =>
    simp only [okEvent] at hok
    cases hc : h.conns[cid]? with
    | none => rw [hc] at hok; exact absurd hok (by simp)
    | some c =>
      rw [hc] at hok
      exact Aligned_unregister h cid hw ha hc (beq_iff_eq.mp hok)
  | selectSeat cid s =>
    simp only [okEvent] at hok
    cases hc : h.conns[cid]? with
    | none => rw [hc] at hok; exact absurd hok (by simp)
    | some c =>
      rw [hc] at hok
      exact Aligned_selectSeat h cid s hw ha hc (beq_iff_eq.mp hok)

theorem Aligned_runTrace (evs : List Event) :
    ∀ h : RoomHub, WF h → Aligned h → cleanTrace h evs = true →
      Aligned (runTrace h evs) := by
  induction evs with
  | nil => intro h _ ha _; exact ha
  | cons ev rest ih =>
    intro h hw ha hcl
    simp only [cleanTrace, Bool.and_eq_true] at hcl
    exact ih (step h ev) (WF_step h ev hw).1 (Aligned_step h ev hw ha hcl.1) hcl.2

theorem oneSeat_of_Aligned (h : RoomHub) (ha : Aligned h) : oneSeatPerUser h := by
  intro s1 s2 u h1 h2 hu
  rcases ha.occ_reg s1 u h1 hu with ⟨cid1, c1, hcl1, hcc1, hcs1⟩
  rcases ha.occ_reg s2 u h2 hu with ⟨cid2, c2, hcl2, hcc2, hcs2⟩
  rw [hcl1] at hcl2
  have he : cid1 = cid2 := Option.some.inj hcl2
  rw [← he, hcc1] at hcc2
  have he2 : c1 = c2 := Option.some.inj hcc2
  rw [← hcs1, ← hcs2, he2]

theorem occupiedCount_le_length (h : RoomHub) : occupiedCount h ≤ h.seats.length :=
  List.length_filter_le _ _

theorem NewRoomHub_seats_length_le (roomID roomName roomTheme ownerID : String)
    (maxSeats : Nat) :
    (NewRoomHub roomID roomName roomTheme ownerID maxSeats).seats.length ≤ maxSeats := by
  have h := length_foldl_setA_le (fun k => seatIDFor (k + 1)) "" (List.range maxSeats) []
  simpa using h

theorem seats_length_runTrace (evs : List Event) (h : RoomHub) (hw : WF h) :
    (runTrace h evs).seats.length = h.seats.length := by
  have hk := (WF_runTrace evs h hw).2.1
  have := congrArg List.length hk
  simpa [seatKeys] using this

theorem mem_seatInfosAux {p : String × String} :
    ∀ (l : List (String × String)) (i : Nat), p ∈ l →
      ∃ si ∈ seatInfosAux i l, si.id = p.1 ∧
        si.userID = (if p.2 = "" then none else some p.2) := by
  intro l
  induction l with
  | nil => intro i hp; simp at hp
  | cons q rest ih =>
    intro i hp
    rcases List.mem_cons.mp hp with hp | hp
    · refine ⟨⟨q.1, i, if q.2 = "" then none else some q.2⟩, ?_, by rw [hp], by rw [hp]⟩
      rcases q with ⟨qk, qv⟩
      exact List.mem_cons_self _ _
    · rcases ih (i + 1) hp with ⟨si, hsi, h1, h2⟩
      refine ⟨si, ?_, h1, h2⟩
      rcases q with ⟨qk, qv⟩
      exact List.mem_cons_of_mem _ hsi

/-! ## Claim C1 -/

/-- C1 (counterexample): the claim as stated is false.  In a capacity-2 room,
user "alice" joins, takes seat A1, joins again (the duplicate join evicts the
first connection but does not free its seat), and then selects A2 from the
new connection.  In the resulting reachable state both A1 and A2 map to
"alice", so "every user occupies at most one seat" fails. -/
theorem claim_C1_counterexample :
    lookupA (runTrace demoRoom dupTrace).seats "A1" = some "alice" ∧
    lookupA (runTrace demoRoom dupTrace).seats "A2" = some "alice" ∧
    ¬ oneSeatPerUser (runTrace demoRoom dupTrace) := by
  refine ⟨by decide, by decide, fun hone => ?_⟩
  exact absurd (hone "A1" "A2" "alice" (by decide) (by decide) (by decide)) (by decide)

/-- C1 (amended): in every state reachable from a fresh room by any sequence
of register, unregister and select-seat operations, the number of occupied
seats is at most the seat capacity and every seat maps to at most one user
(each seat has a single binding); and on traces free of duplicate-join
evictions — every register is for a user not currently in the room and every
select-seat / unregister comes from the user's currently registered
connection, which is what every race-free execution produces — every user
also occupies at most one seat. -/
theorem claim_C1_amended (roomID roomName roomTheme ownerID : String)
    (maxSeats : Nat) (evs : List Event) :
    occupiedCount (runTrace (NewRoomHub roomID roomName roomTheme ownerID maxSeats) evs)
        ≤ maxSeats ∧
    ((runTrace (NewRoomHub roomID roomName roomTheme ownerID maxSeats) evs).seats.map
        Prod.fst).Nodup ∧
    (cleanTrace (NewRoomHub roomID roomName roomTheme ownerID maxSeats) evs = true →
      oneSeatPerUser (runTrace (NewRoomHub roomID roomName roomTheme ownerID maxSeats) evs)) := by
  have hw := WF_NewRoomHub roomID roomName roomTheme ownerID maxSeats
  refine ⟨?_, ((WF_runTrace evs _ hw).1).seats_nodup, ?_⟩
  · calc occupiedCount (runTrace (NewRoomHub roomID roomName roomTheme ownerID maxSeats) evs)
        ≤ (runTrace (NewRoomHub roomID roomName roomTheme ownerID maxSeats) evs).seats.length :=
          occupiedCount_le_length _
      _ = (NewRoomHub roomID roomName roomTheme ownerID maxSeats).seats.length :=
          seats_length_runTrace evs _ hw
      _ ≤ maxSeats := NewRoomHub_seats_length_le roomID roomName roomTheme ownerID maxSeats
  · intro hcl
    exact oneSeat_of_Aligned _
      (Aligned_runTrace evs _ hw
        (Aligned_NewRoomHub roomID roomName roomTheme ownerID maxSeats) hcl)

/-- C1 (witness): the amended theorem applied to a concrete clean trace
(join, take seat A1) of a concrete capacity-2 room. -/
theorem claim_C1_witness :
    cleanTrace demoRoom cleanDemoTrace = true ∧
      oneSeatPerUser (runTrace demoRoom cleanDemoTrace) :=
  ⟨by decide,
    (claim_C1_amended "room1" "Room" "default" "owner" 2 cleanDemoTrace).2.2 (by decide)⟩

/-! ## Claim C2 -/

/-- C2: the claim describes `handleUnregister` as a no-op when the passed
connection is not the one currently registered for its user.  The code only
checks that *some* client is registered under the userID.  Evaluated at the
failing input — the state after a duplicate join, where the evicted
connection 0 still records seat A1 while connection 1 is the one registered
for "alice" — unregistering the stale connection 0 is not a no-op: it frees
seat A1, deletes the newer connection 1 from the client map, and broadcasts
user-left plus seat-updated, contradicting the claim (and the spec's
stale-eviction-tolerance requirement, which the rest of the design relies
on: the freshly joined connection is silently dropped from the room). -/
theorem claim_C2_bug_eval :
    lookupA dupState.clients "alice" = some 1 ∧
    (dupState.conns[0]?).map Client.closed = some true ∧
    (dupState.conns[0]?).map Client.seatID = some "A1" ∧
    (handleUnregister dupState 0 7).1.clients = [] ∧
    lookupA (handleUnregister dupState 0 7).1.seats "A1" = some "" ∧
    (handleUnregister dupState 0 7).2 =
      [Effect.broadcast ⟨typeUserLeft, .userLeft "alice", 7⟩,
       Effect.broadcast ⟨typeSeatUpdated, .seatUpdated "A1" none, 7⟩] := by
  refine ⟨by decide, by decide, by decide, by decide, by decide, by decide⟩

/-! ## Claim C10 -/

/-- C10: when Register evicts an existing connection of the same user and
that connection holds seat `s`, the seat is not freed — the seat map still
maps `s` to the user — while the newly installed connection's current seat is
empty; consequently the snapshot sent to the new connection lists the user
without a seat in `users` yet shows the user as occupant of `s` in the seat
array. -/
theorem claim_C10 (h : RoomHub) (uid dn2 : String) (now oldCid : Nat)
    (c : Client) (s : String)
    (hcl : lookupA h.clients uid = some oldCid)
    (hcc : h.conns[oldCid]? = some c)
    (_hcs : c.seatID = s) (_hsne : s ≠ "") (hune : uid ≠ "")
    (hseat : lookupA h.seats s = some uid) :
    lookupA (registerNew h uid dn2 now).1.seats s = some uid ∧
    lookupA (registerNew h uid dn2 now).1.clients uid = some h.conns.length ∧
    (registerNew h uid dn2 now).1.conns[h.conns.length]? = some (newClient uid dn2) ∧
    (newClient uid dn2).seatID = "" ∧
    (registerNew h uid dn2 now).2.head? = some (.toClient h.conns.length
      ⟨typeRoomState, .roomState (mkSnapshot (registerNew h uid dn2 now).1), now⟩) ∧
    UserInfo.mk uid dn2 "" ∈ (mkSnapshot (registerNew h uid dn2 now).1).users ∧
    (∃ si ∈ (mkSnapshot (registerNew h uid dn2 now).1).seats,
      si.id = s ∧ si.userID = some uid) := by
  have hne_old : oldCid ≠ h.conns.length := by
    have := (List.getElem?_eq_some.mp hcc).1
    omega
  rw [registerNew_eq_evict h uid dn2 now hcl]
  have hget : (heapClose (h.conns ++ [newClient uid dn2]) oldCid)[h.conns.length]? =
      some (newClient uid dn2) := by
    rw [heapClose_getElem, if_neg (fun h2 => hne_old h2.symm),
      List.getElem?_concat_length]
  refine ⟨hseat, lookupA_setA_self _ _ _, hget, rfl, rfl, ?_, ?_⟩
  · refine List.mem_filterMap.mpr ⟨(uid, h.conns.length), ?_, ?_⟩
    · exact mem_of_lookupA (lookupA_setA_self h.clients uid h.conns.length)
    · show ((heapClose (h.conns ++ [newClient uid dn2]) oldCid)[h.conns.length]?).map _ = _
      rw [hget]
      rfl
  · have hm : (s, uid) ∈ h.seats := mem_of_lookupA hseat
    rcases mem_seatInfosAux h.seats 0 hm with ⟨si, hsi, h1, h2⟩
    rw [if_neg hune] at h2
    exact ⟨si, hsi, h1, h2⟩

/-- C10 (witness): the theorem applied to the concrete pre-duplicate-join
state, where "alice" on connection 0 holds seat A1 and rejoins as "Alice2". -/
theorem claim_C10_witness :
    lookupA (registerNew preDupState "alice" "Alice2" 5).1.seats "A1" = some "alice" ∧
    UserInfo.mk "alice" "Alice2" "" ∈
      (mkSnapshot (registerNew preDupState "alice" "Alice2" 5).1).users ∧
    (∃ si ∈ (mkSnapshot (registerNew preDupState "alice" "Alice2" 5).1).seats,
      si.id = "A1" ∧ si.userID = some "alice") :=
  let t := claim_C10 preDupState "alice" "Alice2" 5 0
    ⟨"alice", "Alice", "A1", false, []⟩ "A1"
    (by decide) (by decide) (by decide) (by decide) (by decide) (by decide)
  ⟨t.1, t.2.2.2.2.2.1, t.2.2.2.2.2.2⟩

/-! ## Claim C4 -/

theorem foldSend_not_mem (m : OutMsg) :
    ∀ (l : List (String × Nat)) (cs : List Client) (cid : Nat),
      cid ∉ l.map Prod.snd →
      (l.foldl (fun a p => sendToHeap a p.2 m) cs)[cid]? = cs[cid]? := by
  intro l
  induction l with
  | nil => intro cs cid _; rfl
  | cons q rest ih =>
    intro cs cid hcid
    simp only [List.map_cons, List.mem_cons] at hcid
    push_neg at hcid
    rw [List.foldl_cons, ih _ cid hcid.2, sendToHeap_getElem_ne _ _ _ _ hcid.1]

theorem foldSend_mem (m : OutMsg) :
    ∀ (l : List (String × Nat)) (cs : List Client) (cid : Nat) (c : Client),
      (l.map Prod.snd).Nodup → cid ∈ l.map Prod.snd → cs[cid]? = some c →
      (l.foldl (fun a p => sendToHeap a p.2 m) cs)[cid]? = some (c.send m) := by
  intro l
  induction l with
  | nil => intro cs cid c _ hmem _; simp at hmem
  | cons q rest ih =>
    intro cs cid c hnd hmem hc
    simp only [List.map_cons, List.nodup_cons] at hnd
    rw [List.foldl_cons]
    rcases List.mem_cons.mp hmem with he | hmem2
    · subst he
      rw [foldSend_not_mem m rest _ q.2 hnd.1]
      exact sendToHeap_getElem_self cs q.2 m hc
    · refine ih _ cid c hnd.2 hmem2 ?_
      rw [sendToHeap_getElem_ne _ _ _ _
        (fun he2 => hnd.1 (by rw [← he2]; exact hmem2))]
      exact hc

/-- C4: `Send` is non-blocking (it is a total function on the queue: it
either enqueues or cancels, never waits), and `handleBroadcast` delivers one
such `Send` to every registered connection: a registered connection whose
outbound queue has fewer than 256 pending messages receives the message at
the end of its queue; a registered connection whose queue is full is
unilaterally terminated (its cancellation scope is cancelled, its queue
unchanged); and connections other than the targeted one are untouched, so a
full queue affects only its own connection and the message still reaches
every other registered connection.  The cid-uniqueness hypothesis holds in
every reachable state (one connection object per map entry). -/
theorem claim_C4 (h : RoomHub) (m : OutMsg)
    (hnd : (h.clients.map Prod.snd).Nodup)
    (uid : String) (cid : Nat) (c : Client)
    (hmem : (uid, cid) ∈ h.clients) (hc : h.conns[cid]? = some c) :
    (c.sendQueue.length < sendBufferSize →
      (handleBroadcast h m).conns[cid]? =
        some { c with sendQueue := c.sendQueue ++ [m] }) ∧
    (sendBufferSize ≤ c.sendQueue.length →
      (handleBroadcast h m).conns[cid]? = some { c with closed := true }) ∧
    (∀ cid2 : Nat, cid2 ∉ h.clients.map Prod.snd →
      (handleBroadcast h m).conns[cid2]? = h.conns[cid2]?) := by
  have hmem2 : cid ∈ h.clients.map Prod.snd := List.mem_map_of_mem Prod.snd hmem
  have hmain : (handleBroadcast h m).conns[cid]? = some (c.send m) := by
    show (h.clients.foldl (fun a p => sendToHeap a p.2 m) h.conns)[cid]? = _
    exact foldSend_mem m h.clients h.conns cid c hnd hmem2 hc
  refine ⟨?_, ?_, ?_⟩
  · intro hlen
    rw [hmain]
    unfold Client.send
    rw [if_pos hlen]
  · intro hlen
    rw [hmain]
    unfold Client.send
    rw [if_neg (by omega)]
  · intro cid2 h2
    show (h.clients.foldl (fun a p => sendToHeap a p.2 m) h.conns)[cid2]? = _
    exact foldSend_not_mem m h.clients h.conns cid2 h2

/-- C4 (witness): broadcasting to a concrete room where "alice" has a free
queue and "bob" a saturated one: alice's queue gains the message, bob's
connection is cancelled, and an unregistered index is untouched. -/
theorem claim_C4_witness :
    ((handleBroadcast bcastState fullQueueMsg).conns[0]? =
      some { newClient "alice" "Alice" with sendQueue := [fullQueueMsg] }) ∧
    ((handleBroadcast bcastState fullQueueMsg).conns[1]? =
      some { slowClient with closed := true }) ∧
    ((handleBroadcast bcastState fullQueueMsg).conns[5]? = bcastState.conns[5]?) := by
  have t1 := claim_C4 bcastState fullQueueMsg (by decide) "alice" 0
    (newClient "alice" "Alice") (by decide) rfl
  have t2 := claim_C4 bcastState fullQueueMsg (by decide) "bob" 1 slowClient
    (by decide) rfl
  exact ⟨t1.1 (by decide), t2.2.1 (by simp [slowClient]), t1.2.2 5 (by decide)⟩

/-! ## Claim C5 -/

/-- C5 (counterexample): the claim as stated is false.  The content `" "` is
empty after trimming whitespace, yet the code — which compares the raw
content against the empty string without trimming — does not reject it with
EMPTY_MESSAGE but broadcasts it. -/
theorem claim_C5_counterexample :
    trimmedChars " " = [] ∧
    handleChatMessage dupState 1 (.chat " ") 3 "fid" =
      (dupState,
        [.broadcast ⟨typeChatMessage, .chat ⟨"fid", "alice", "Alice", " ", 3⟩, 3⟩]) := by
  exact ⟨by decide, by decide⟩

/-- C5 (amended): a chat message is rejected with EMPTY_MESSAGE exactly when
its content equals the empty string (no whitespace trimming), and with
MESSAGE_TOO_LONG exactly when it is non-empty and its UTF-8 byte length
(Go's `len` on a string) exceeds 500; every other chat message leaves the
room state unchanged and is broadcast to the room (hence, by the broadcast
delivery theorem, to all members including the sender) stamped with the
fresh message identifier, the sender's identity and the server timestamp. -/
theorem claim_C5_amended (h : RoomHub) (cid : Nat) (c : Client) (content : String)
    (now : Nat) (freshId : String) (hc : h.conns[cid]? = some c) :
    (content = "" →
      handleChatMessage h cid (.chat content) now freshId =
        (h, [errEffect cid now "EMPTY_MESSAGE" "Message content cannot be empty"])) ∧
    (content ≠ "" → 500 < content.utf8ByteSize →
      handleChatMessage h cid (.chat content) now freshId =
        (h, [errEffect cid now "MESSAGE_TOO_LONG" "Message cannot exceed 500 characters"])) ∧
    (content ≠ "" → ¬ 500 < content.utf8ByteSize →
      handleChatMessage h cid (.chat content) now freshId =
        (h, [.broadcast ⟨typeChatMessage,
          .chat ⟨freshId, c.userID, c.displayName, content, now⟩, now⟩])) := by
  refine ⟨?_, ?_, ?_⟩
  · intro he
    simp [handleChatMessage, hc, he]
  · intro h1 h2
    simp [handleChatMessage, hc, h1, h2]
  · intro h1 h2
    simp [handleChatMessage, hc, h1, h2]

/-- C5 (witness): a concrete accepted chat message from "alice". -/
theorem claim_C5_witness :
    handleChatMessage dupState 1 (.chat "hello") 3 "fid" =
      (dupState,
        [.broadcast ⟨typeChatMessage, .chat ⟨"fid", "alice", "Alice", "hello", 3⟩, 3⟩]) :=
  (claim_C5_amended dupState 1 (newClient "alice" "Alice") "hello" 3 "fid"
    (by decide)).2.2 (by decide) (by decide)

/-! ## Claim C6 -/

/-- C6: a media control message from a connection whose user identifier is
not the room owner's yields exactly a scoped NOT_HOST error to that
connection: the state — in particular MediaState, which stays absent if
absent — is returned unchanged and nothing is broadcast, whatever the
payload (the owner check precedes payload decoding). -/
theorem claim_C6 (h : RoomHub) (cid : Nat) (c : Client) (p : InPayload) (now : Nat)
    (hc : h.conns[cid]? = some c) (hne : c.userID ≠ h.ownerID) :
    handleMediaControl h cid p now =
      (h, [errEffect cid now "NOT_HOST" "Only the room owner can control media"]) := by
  simp [handleMediaControl, hc, hne]

/-- C6 (witness): non-owner "alice" issuing a play action in a room owned by
"owner"; the state (with MediaState absent) comes back unchanged. -/
theorem claim_C6_witness :
    handleMediaControl dupState 1 (.media "play" 0 "" "") 4 =
      (dupState, [errEffect 1 4 "NOT_HOST" "Only the room owner can control media"]) :=
  claim_C6 dupState 1 (newClient "alice" "Alice") (.media "play" 0 "" "") 4
    (by decide) (by decide)

/-! ## Claim C7 -/

/-- C7: an owner-issued change action with an empty video URL yields an
INVALID_URL error to the owner and no broadcast; with a non-empty URL the
media state becomes exactly (URL, title, playing = true, position = 0,
updated now) — replacing URL and title, resetting the position and setting
the playing flag — and that full state together with the acting user's
identifier is broadcast to the room (delivered to every member by the
broadcast delivery theorem). -/
theorem claim_C7 (h : RoomHub) (cid : Nat) (c : Client) (t : Rat)
    (url title : String) (now : Nat)
    (hc : h.conns[cid]? = some c) (howner : c.userID = h.ownerID) :
    (url = "" →
      handleMediaControl h cid (.media "change" t url title) now =
        ({ h with mediaState := some (lazyMedia h.mediaState now) },
          [errEffect cid now "INVALID_URL" "Video URL is required"])) ∧
    (url ≠ "" →
      handleMediaControl h cid (.media "change" t url title) now =
        ({ h with mediaState := some ⟨url, title, true, 0, now⟩ },
          [.broadcast ⟨typeMediaState, .media ⟨url, title, true, 0, now⟩ c.userID, now⟩])) := by
  constructor
  · intro hu
    simp [handleMediaControl, hc, howner, hu]
  · intro hu
    simp [handleMediaControl, hc, howner, hu, lazyMedia]

/-- C7 (witness): the owner changing the video with an empty and with a
non-empty URL in a concrete room. -/
theorem claim_C7_witness :
    handleMediaControl ownerState 0 (.media "change" 2 "" "T") 5 =
      ({ ownerState with mediaState := some ⟨"", "", false, 0, 5⟩ },
        [errEffect 0 5 "INVALID_URL" "Video URL is required"]) ∧
    handleMediaControl ownerState 0 (.media "change" 2 "http://v" "T") 5 =
      ({ ownerState with mediaState := some ⟨"http://v", "T", true, 0, 5⟩ },
        [.broadcast ⟨typeMediaState, .media ⟨"http://v", "T", true, 0, 5⟩ "owner", 5⟩]) :=
  ⟨(claim_C7 ownerState 0 (newClient "owner" "Owner") 2 "" "T" 5
      (by decide) (by decide)).1 rfl,
   (claim_C7 ownerState 0 (newClient "owner" "Owner") 2 "http://v" "T" 5
      (by decide) (by decide)).2 (by decide)⟩

/-! ## Claim C9 -/

/-- C9 (counterexample): the claim as stated is false.  Dispatching an
avatar-action message does not silently no-op: the sender receives a scoped
UNKNOWN_TYPE error, exactly as for a genuinely unknown tag, because
`handleMessage` has no case for the declared `avatar_action` kind. -/
theorem claim_C9_counterexample :
    handleMessage dupState 1 typeAvatarAction .malformed 4 "f" =
      (dupState, [errEffect 1 4 "UNKNOWN_TYPE" "Unknown message type"]) ∧
    (handleMessage dupState 1 typeAvatarAction .malformed 4 "f").2 ≠ [] := by
  exact ⟨by decide, by decide⟩

/-- C9 (amended): an avatar-action message causes no state change and no
broadcast, but it is not treated as a reserved no-op: like any unknown tag,
it is answered with a scoped UNKNOWN_TYPE error to the sender only. -/
theorem claim_C9_amended (h : RoomHub) (cid : Nat) (p : InPayload) (now : Nat)
    (freshId : String) :
    handleMessage h cid typeAvatarAction p now freshId =
      (h, [errEffect cid now "UNKNOWN_TYPE" "Unknown message type"]) := by
  simp [handleMessage, typeAvatarAction, typeChatMessage, typeSelectSeat, typeMediaControl]

/-! ## Claim C3 -/

/-- C3 (counterexample): the claim as stated is false.  The owner's very
first media action being a rejected negative seek does mutate state:
`handleMediaControl` lazily initialises MediaState *before* validating, so
after the INVALID_TIME rejection MediaState has changed from absent to the
default present state. -/
theorem claim_C3_counterexample :
    ownerState.mediaState = none ∧
    (handleMediaControl ownerState 0 (.media "seek" (-1) "" "") 5).2 =
      [errEffect 0 5 "INVALID_TIME" "Time cannot be negative"] ∧
    (handleMediaControl ownerState 0 (.media "seek" (-1) "" "") 5).1.mediaState =
      some ⟨"", "", false, 0, 5⟩ := by
  exact ⟨by decide, by decide, by decide⟩

/-- C3 (amended): every validation rejection sends only a scoped error to
the offending connection and leaves the seat map and client map unchanged;
the rejections of `handleSelectSeat` and `handleChatMessage` (unknown seat,
occupied seat, empty or too-long content) leave the entire state unchanged,
while the owner-issued media-control rejections (negative seek time, empty
change URL, unknown action) leave everything unchanged except that
MediaState, if absent, has been initialised to the default state (empty
URL/title, not playing, position 0). -/
theorem claim_C3_amended (h : RoomHub) (cid : Nat) (c : Client) (now : Nat)
    (freshId : String) (hc : h.conns[cid]? = some c) :
    (∀ s, lookupA h.seats s = none →
      handleSelectSeat h cid (.seat s) now =
        (h, [errEffect cid now "INVALID_SEAT" "Seat does not exist"])) ∧
    (∀ s occ, lookupA h.seats s = some occ → occ ≠ "" → occ ≠ c.userID →
      handleSelectSeat h cid (.seat s) now =
        (h, [errEffect cid now "SEAT_OCCUPIED" "Seat is already occupied"])) ∧
    (handleChatMessage h cid (.chat "") now freshId =
      (h, [errEffect cid now "EMPTY_MESSAGE" "Message content cannot be empty"])) ∧
    (∀ content : String, content ≠ "" → 500 < content.utf8ByteSize →
      handleChatMessage h cid (.chat content) now freshId =
        (h, [errEffect cid now "MESSAGE_TOO_LONG" "Message cannot exceed 500 characters"])) ∧
    (∀ (t : Rat) (u ti : String), c.userID = h.ownerID → t < 0 →
      handleMediaControl h cid (.media "seek" t u ti) now =
        ({ h with mediaState := some (lazyMedia h.mediaState now) },
          [errEffect cid now "INVALID_TIME" "Time cannot be negative"])) ∧
    (∀ (t : Rat) (ti : String), c.userID = h.ownerID →
      handleMediaControl h cid (.media "change" t "" ti) now =
        ({ h with mediaState := some (lazyMedia h.mediaState now) },
          [errEffect cid now "INVALID_URL" "Video URL is required"])) ∧
    (∀ (a : String) (t : Rat) (u ti : String), c.userID = h.ownerID →
      a ≠ "play" → a ≠ "pause" → a ≠ "seek" → a ≠ "change" →
      handleMediaControl h cid (.media a t u ti) now =
        ({ h with mediaState := some (lazyMedia h.mediaState now) },
          [errEffect cid now "INVALID_ACTION" "Invalid media control action"])) := by
  refine ⟨?_, ?_, ?_, ?_, ?_, ?_, ?_⟩
  · intro s hs
    exact handleSelectSeat_invalid h cid now s hc hs
  · intro s occ hs h1 h2
    exact handleSelectSeat_occupied h cid now hc hs h1 h2
  · simp [handleChatMessage, hc]
  · intro content h1 h2
    simp [handleChatMessage, hc, h1, h2]
  · intro t u ti howner ht
    simp [handleMediaControl, hc, howner, ht, not_le.mpr ht]
  · intro t ti howner
    simp [handleMediaControl, hc, howner]
  · intro a t u ti howner h1 h2 h3 h4
    simp [handleMediaControl, hc, howner, h1, h2, h3, h4]

/-- C3 (witness): two concrete rejections — an unknown seat id for "alice",
and an unknown media action for the owner whose only effect on state is the
lazy MediaState initialisation. -/
theorem claim_C3_witness :
    handleSelectSeat dupState 1 (.seat "Z9") 4 =
      (dupState, [errEffect 1 4 "INVALID_SEAT" "Seat does not exist"]) ∧
    handleMediaControl ownerState 0 (.media "stop" 0 "" "") 5 =
      ({ ownerState with mediaState := some ⟨"", "", false, 0, 5⟩ },
        [errEffect 0 5 "INVALID_ACTION" "Invalid media control action"]) :=
  ⟨(claim_C3_amended dupState 1 (newClient "alice" "Alice") 4 "f"
      (by decide)).1 "Z9" (by decide),
   (claim_C3_amended ownerState 0 (newClient "owner" "Owner") 5 "f"
      (by decide)).2.2.2.2.2.2 "stop" 0 "" "" (by decide) (by decide) (by decide)
      (by decide) (by decide)⟩

/-! ## Claim C8 -/

theorem char_toNat_ofNat_valid (n : Nat) (hn : n < 55296) :
    (Char.ofNat n).toNat = n := by
  have hv : Nat.isValidChar n := Or.inl hn
  simp [Char.ofNat, hv, Char.ofNatAux, Char.toNat, UInt32.toNat, BitVec.toNat_ofNatLt]

theorem seatIDFor_inj {i j : Nat} (hi2 : i ≤ 10000) (hj2 : j ≤ 10000)
    (he : seatIDFor i = seatIDFor j) : i = j := by
  unfold seatIDFor at he
  by_cases h9i : i ≤ 9 <;> by_cases h9j : j ≤ 9
  · rw [if_pos h9i, if_pos h9j] at he
    injection he with hd
    injection hd with _ hd2
    injection hd2 with hch _
    have := congrArg Char.toNat hch
    rw [char_toNat_ofNat_valid (48 + i) (by omega),
      char_toNat_ofNat_valid (48 + j) (by omega)] at this
    omega
  · rw [if_pos h9i, if_neg h9j] at he
    injection he with hd
    injection hd with hch _
    have := congrArg Char.toNat hch
    rw [char_toNat_ofNat_valid (64 + j / 10 + 1) (by omega)] at this
    have hA : ('A').toNat = 65 := rfl
    rw [hA] at this
    omega
  · rw [if_neg h9i, if_pos h9j] at he
    injection he with hd
    injection hd with hch _
    have := congrArg Char.toNat hch
    rw [char_toNat_ofNat_valid (64 + i / 10 + 1) (by omega)] at this
    have hA : ('A').toNat = 65 := rfl
    rw [hA] at this
    omega
  · rw [if_neg h9i, if_neg h9j] at he
    injection he with hd
    injection hd with hch hd2
    injection hd2 with hcl _
    have h1 := congrArg Char.toNat hch
    have h2 := congrArg Char.toNat hcl
    rw [char_toNat_ofNat_valid (64 + i / 10 + 1) (by omega),
      char_toNat_ofNat_valid (64 + j / 10 + 1) (by omega)] at h1
    rw [char_toNat_ofNat_valid (48 + i % 10) (by omega),
      char_toNat_ofNat_valid (48 + j % 10) (by omega)] at h2
    omega

theorem foldl_setA_fresh (f : Nat → String)
    (hinj : ∀ a b : Nat, a < 10000 → b < 10000 → f a = f b → a = b) :
    ∀ n : Nat, n ≤ 10000 →
      (List.range n).foldl (fun acc k => setA acc (f k) "") [] =
        (List.range n).map (fun k => (f k, "")) := by
  intro n
  induction n with
  | zero => intro _; rfl
  | succ m ih =>
    intro hle
    rw [List.range_succ, List.foldl_append, List.map_append, ih (by omega)]
    simp only [List.foldl_cons, List.foldl_nil, List.map_cons, List.map_nil]
    rw [setA_of_not_mem]
    intro hmem
    rw [List.map_map] at hmem
    rcases List.mem_map.mp hmem with ⟨k, hk, hfk⟩
    have hkm : k < m := List.mem_range.mp hk
    have : k = m := hinj k m (by omega) (by omega) hfk
    omega

/-- C8 (counterexample): the claim as stated is false for capacity 16: the
seat set is not A1..A16 — there is no seat "A16"; the sixteenth seat is
"B6", because for seat numbers i ≥ 10 the code emits the letter with code
65 + i/10 followed by the digit i mod 10. -/
theorem claim_C8_counterexample :
    lookupA (NewRoomHub "r" "n" "t" "o" 16).seats "A16" = none ∧
    lookupA (NewRoomHub "r" "n" "t" "o" 16).seats "B6" = some "" ∧
    (NewRoomHub "r" "n" "t" "o" 16).seats.map Prod.fst =
      ["A1", "A2", "A3", "A4", "A5", "A6", "A7", "A8", "A9",
       "B0", "B1", "B2", "B3", "B4", "B5", "B6"] := by
  exact ⟨by decide, by decide, by decide⟩

/-- C8 (amended): for every room created with seat capacity N ≤ 10000
(deployments always use 16), the seat map is exactly the list of the N
identifiers `seatIDFor 1..N` — "A" followed by the digit i for i ≤ 9 and,
for i ≥ 10, the letter with code 65 + i/10 followed by the digit i mod 10 —
all distinct, each initially unoccupied, and the seat key set is left intact
by every subsequent trace of register / unregister / select-seat
operations.  (The bound keeps every letter a valid code point; the naming
is genuinely injective only below it.) -/
theorem claim_C8_amended (roomID roomName roomTheme ownerID : String) (N : Nat)
    (hN : N ≤ 10000) :
    (NewRoomHub roomID roomName roomTheme ownerID N).seats =
      (List.range N).map (fun k => (seatIDFor (k + 1), "")) ∧
    (NewRoomHub roomID roomName roomTheme ownerID N).seats.length = N ∧
    ((NewRoomHub roomID roomName roomTheme ownerID N).seats.map Prod.fst).Nodup ∧
    (∀ p ∈ (NewRoomHub roomID roomName roomTheme ownerID N).seats, p.2 = "") ∧
    (∀ evs : List Event,
      seatKeys (runTrace (NewRoomHub roomID roomName roomTheme ownerID N) evs) =
        seatKeys (NewRoomHub roomID roomName roomTheme ownerID N)) := by
  have hform : (NewRoomHub roomID roomName roomTheme ownerID N).seats =
      (List.range N).map (fun k => (seatIDFor (k + 1), "")) := by
    show (List.range N).foldl (fun acc k => setA acc (seatIDFor (k + 1)) "") [] = _
    exact foldl_setA_fresh (fun k => seatIDFor (k + 1))
      (fun a b ha hb he => by
        have := seatIDFor_inj (i := a + 1) (j := b + 1) (by omega) (by omega) he
        omega) N hN
  refine ⟨hform, ?_, (WF_NewRoomHub roomID roomName roomTheme ownerID N).seats_nodup,
    ?_, ?_⟩
  · rw [hform]
    simp
  · exact values_foldl_setA _ (List.range N) [] (by simp)
  · intro evs
    exact (WF_runTrace evs _ (WF_NewRoomHub roomID roomName roomTheme ownerID N)).2.1

/-- C8 (witness): the amended theorem instantiated at the deployed capacity
16. -/
theorem claim_C8_witness :
    (NewRoomHub "r" "n" "t" "o" 16).seats =
      (List.range 16).map (fun k => (seatIDFor (k + 1), "")) ∧
    (NewRoomHub "r" "n" "t" "o" 16).seats.length = 16 :=
  ⟨(claim_C8_amended "r" "n" "t" "o" 16 (by decide)).1,
   (claim_C8_amended "r" "n" "t" "o" 16 (by decide)).2.1⟩

end Cineus
